import Mathlib

/-!
# lambda-golang: the Athena submit / poll / fetch / parse pipeline

A shallow embedding of `main.go`.  Remote calls go through an `AthenaClient`,
modelled as a deterministic state machine over a client state `σ`; every
function of the program threads that state and records the effects it
performs (remote calls, sleeps, log lines) in a trace.  Go pointers are
`Option`s, a nil slice is `none`, and a run ends by returning, by a run-time
panic, or by exiting the process.
-/

namespace LambdaGolang

/-! ## Go values -/

/-- Go `error` value, identified by its message. -/
structure GoError where
  msg : String
deriving DecidableEq, Repr

/-- Go slice: `none` is the nil slice, `some l` a non-nil slice. -/
abbrev Slice (α : Type) := Option (List α)

/-- Elements of a slice; the nil slice has none. -/
def Slice.toList {α : Type} : Slice α → List α
  | none => []
  | some l => l

/-- Go `append(s, x)`: the result is never nil. -/
def Slice.append {α : Type} (s : Slice α) (x : α) : Slice α :=
  some (Slice.toList s ++ [x])

/-- Run-time panics the program can raise. -/
inductive Panic where
  | nilDereference
  | indexOutOfRange
  | sliceBoundsOutOfRange
deriving DecidableEq, Repr

/-- How a Go call ends: it returns, it panics, or the process exits. -/
inductive Outcome (α : Type) where
  | ret (v : α)
  | panic (p : Panic)
  | exit (code : Nat)
deriving DecidableEq, Repr

/-- Value decoded by `encoding/json` into `interface{}`. A number is kept as
its literal text; the program never inspects one. -/
inductive JSONValue where
  | null
  | bool (b : Bool)
  | number (literal : String)
  | string (s : String)
  | array (elems : List JSONValue)
  | object (fields : List (String × JSONValue))
deriving Repr

/-- Go `map[string]interface{}` as an association list; a nil map reads like
the empty one. -/
abbrev JSONMap := List (String × JSONValue)

/-- Map read `m[key]`. -/
def JSONMap.get (m : JSONMap) (key : String) : Option JSONValue :=
  match m with
  | [] => none
  | (k, v) :: rest => if k = key then some v else JSONMap.get rest key

/-- Map write `m[key] = v`: an existing key is overwritten. -/
def JSONMap.set (m : JSONMap) (key : String) (v : JSONValue) : JSONMap :=
  match m with
  | [] => [(key, v)]
  | (k, w) :: rest => if k = key then (k, v) :: rest else (k, w) :: JSONMap.set rest key v

/-- Signature of `json.Unmarshal([]byte(text), &txtInfo)` for
`txtInfo : map[string]interface{}`. -/
abbrev Unmarshal := String → Except GoError JSONMap

/-! ## The Athena SDK types used by the program -/

structure StartQueryExecutionInput where
  QueryString : Option String
  OutputLocation : Option String
deriving DecidableEq, Repr

structure StartQueryExecutionOutput where
  QueryExecutionId : Option String
deriving DecidableEq, Repr

structure GetQueryExecutionInput where
  QueryExecutionId : Option String
deriving DecidableEq, Repr

structure QueryExecutionStatus where
  State : Option String
deriving DecidableEq, Repr

structure QueryExecution where
  Status : Option QueryExecutionStatus
deriving DecidableEq, Repr

structure GetQueryExecutionOutput where
  QueryExecution : Option QueryExecution
deriving DecidableEq, Repr

structure GetQueryResultsInput where
  QueryExecutionId : Option String
deriving DecidableEq, Repr

structure Datum where
  VarCharValue : Option String
deriving DecidableEq, Repr

structure Row where
  Data : List (Option Datum)
deriving DecidableEq, Repr

structure ResultSet where
  Rows : List (Option Row)
deriving DecidableEq, Repr

structure GetQueryResultsOutput where
  ResultSet : Option ResultSet
deriving DecidableEq, Repr

def QueryExecutionStateQueued : String := "QUEUED"
def QueryExecutionStateRunning : String := "RUNNING"
def QueryExecutionStateSucceeded : String := "SUCCEEDED"
def QueryExecutionStateFailed : String := "FAILED"
def QueryExecutionStateCancelled : String := "CANCELLED"

/-- What a remote call hands back: the output pointer and the error. -/
structure Reply (α : Type) where
  out : Option α
  err : Option GoError
deriving DecidableEq, Repr

/-- The `AthenaClient` interface: each method maps the client state and the
input to the next client state and the reply. -/
structure AthenaClient (σ : Type) where
  StartQueryExecution : σ → StartQueryExecutionInput → σ × Reply StartQueryExecutionOutput
  GetQueryExecution : σ → GetQueryExecutionInput → σ × Reply GetQueryExecutionOutput
  GetQueryResults : σ → GetQueryResultsInput → σ × Reply GetQueryResultsOutput

/-! ## Effects and runs -/

/-- Observable effect of the program: a remote call with the error it
returned, a sleep, or a log line (with its operands). -/
inductive Effect where
  | StartQueryExecution (input : StartQueryExecutionInput) (err : Option GoError)
  | GetQueryExecution (input : GetQueryExecutionInput) (err : Option GoError)
  | GetQueryResults (input : GetQueryResultsInput) (err : Option GoError)
  | Sleep (seconds : Nat)
  | Println (args : List String)
  | Fatalln (args : List String)
deriving DecidableEq, Repr

/-- Result of running a function of the program: the client state it leaves,
the effects it performed in order, and how it ended. -/
structure Run (σ α : Type) where
  state : σ
  trace : List Effect
  outcome : Outcome α

/-- Run `r` placed after the effects `pre`. -/
def Run.after {σ α : Type} (pre : List Effect) (r : Run σ α) : Run σ α :=
  { r with trace := pre ++ r.trace }

/-! ## The program's types -/

structure ErroDetail where
  Descricao : String
deriving DecidableEq, Repr

structure Event where
  Name : String
  Data : String
  Status : String
  ErroDetail : Option ErroDetail
deriving DecidableEq, Repr

/-- Return type `([]Event, error)`. -/
abbrev EventsResult := Slice Event × Option GoError

/-! ## fetchResults -/

/-- Expression `*row.Data[i].VarCharValue`. -/
def column (row : Option Row) (i : Nat) : Except Panic String :=
  match row with
  | none => .error .nilDereference
  | some r =>
    match r.Data.get? i with
    | none => .error .indexOutOfRange
    | some none => .error .nilDereference
    | some (some d) =>
      match d.VarCharValue with
      | none => .error .nilDereference
      | some v => .ok v

/-- Inner loop `for _, e := range erros`: the first element that is a map
with a string under "descricao" sets the detail and ends the scan. -/
def scanErros : List JSONValue → Option ErroDetail
  | [] => none
  | .object erroMap :: rest =>
    match JSONMap.get erroMap "descricao" with
    | some (.string desc) => some { Descricao := desc }
    | _ => scanErros rest
  | _ :: rest => scanErros rest

/-- The `erroDetail` variable after the block guarded by
`txtInfo["erros"].([]interface{})`. -/
def erroDetailOf (txtInfo : JSONMap) : Option ErroDetail :=
  match JSONMap.get txtInfo "erros" with
  | some (.array erros) => scanErros erros
  | _ => none

/-- How one pass through the body of the loop over the data rows ends: a row
access panics, the decode error makes `fetchResults` return, or the pass
builds the `Event` to append. -/
inductive RowResult where
  | panic (p : Panic)
  | fail (err : GoError)
  | event (ev : Event)
deriving DecidableEq, Repr

/-- Body of the loop over the data rows, up to the `Event` it builds. -/
def fetchResultsRow (unmarshal : Unmarshal) (row : Option Row) : RowResult :=
  match column row 0 with
  | .error p => .panic p
  | .ok evento =>
    match column row 1 with
    | .error p => .panic p
    | .ok dataHora =>
      match column row 2 with
      | .error p => .panic p
      | .ok status =>
        match column row 3 with
        | .error p => .panic p
        | .ok erro =>
          match unmarshal erro with
          | .error err => .fail err
          | .ok txtInfo =>
            .event { Name := evento, Data := dataHora, Status := status,
                     ErroDetail := erroDetailOf txtInfo }

/-- The loop `for _, row := range rows` with `eventsResult` as accumulator,
followed by `return eventsResult, nil`. -/
def fetchResultsLoop (unmarshal : Unmarshal) :
    List (Option Row) → Slice Event → Outcome EventsResult
  | [], eventsResult => .ret (eventsResult, none)
  | row :: rest, eventsResult =>
    match fetchResultsRow unmarshal row with
    | .panic p => .panic p
    | .fail err => .ret (none, some err)
    | .event event => fetchResultsLoop unmarshal rest (Slice.append eventsResult event)

/-- Expression `results.ResultSet.Rows[1:]`. -/
def dataRows (results : Option GetQueryResultsOutput) : Except Panic (List (Option Row)) :=
  match results with
  | none => .error .nilDereference
  | some out =>
    match out.ResultSet with
    | none => .error .nilDereference
    | some rs =>
      match rs.Rows with
      | [] => .error .sliceBoundsOutOfRange
      | _ :: rows => .ok rows

def fetchResults {σ : Type} (unmarshal : Unmarshal) (svc : AthenaClient σ)
    (queryExecutionID : Option String) (s : σ) : Run σ EventsResult :=
  let input : GetQueryResultsInput := { QueryExecutionId := queryExecutionID }
  let r := svc.GetQueryResults s input
  let tr := [Effect.GetQueryResults input r.2.err]
  match r.2.err with
  | some err => { state := r.1, trace := tr, outcome := .ret (none, some err) }
  | none =>
    match dataRows r.2.out with
    | .error p => { state := r.1, trace := tr, outcome := .panic p }
    | .ok rows =>
      { state := r.1, trace := tr, outcome := fetchResultsLoop unmarshal rows none }

/-! ## getQueryResults -/

def maxWaitTime : Nat := 25
def waitInterval : Nat := 1

/-- Expression `*result.QueryExecution.Status.State`; `none` is a nil
dereference. -/
def statusOf (result : Option GetQueryExecutionOutput) : Option String :=
  match result with
  | none => none
  | some out =>
    match out.QueryExecution with
    | none => none
    | some qe =>
      match qe.Status with
      | none => none
      | some st => st.State

/-- The loop `for elapsed := 0; elapsed < maxWaitTime; elapsed += waitInterval`
from the iteration that starts at `elapsed`, followed by the final return. -/
def pollLoop {σ : Type} (unmarshal : Unmarshal) (svc : AthenaClient σ)
    (queryExecutionID : Option String) (elapsed : Nat) (s : σ) : Run σ EventsResult :=
  if elapsed < maxWaitTime then
    let statusInput : GetQueryExecutionInput := { QueryExecutionId := queryExecutionID }
    let r := svc.GetQueryExecution s statusInput
    let call := Effect.GetQueryExecution statusInput r.2.err
    match r.2.err with
    | some err => { state := r.1, trace := [call], outcome := .ret (none, some err) }
    | none =>
      match statusOf r.2.out with
      | none => { state := r.1, trace := [call], outcome := .panic .nilDereference }
      | some status =>
        if status = QueryExecutionStateSucceeded then
          Run.after [call] (fetchResults unmarshal svc queryExecutionID r.1)
        else if status = QueryExecutionStateFailed ∨ status = QueryExecutionStateCancelled then
          { state := r.1
            trace := [call, Effect.Fatalln ["Query com status de falha/cancelada: ", status]]
            outcome := .exit 1 }
        else
          Run.after [call, Effect.Sleep waitInterval]
            (pollLoop unmarshal svc queryExecutionID (elapsed + waitInterval) r.1)
  else
    { state := s, trace := []
      outcome := .ret (none, some { msg := "query nao concluida dentro dos 25s" }) }
termination_by maxWaitTime - elapsed
decreasing_by
  simp only [waitInterval, maxWaitTime] at *
  omega

def getQueryResults {σ : Type} (unmarshal : Unmarshal) (svc : AthenaClient σ)
    (queryExecutionID : Option String) (s : σ) : Run σ EventsResult :=
  pollLoop unmarshal svc queryExecutionID 0 s

/-! ## queryAthena -/

def queryAthena {σ : Type} (unmarshal : Unmarshal) (svc : AthenaClient σ)
    (queryID : String) (s : σ) : Run σ EventsResult :=
  let queryString := "SELECT * FROM tb_teste WHERE id='" ++ queryID ++ "'"
  let queryExecutionInput : StartQueryExecutionInput :=
    { QueryString := some queryString
      OutputLocation := some "s3://bucket-teste/query-results/" }
  let r := svc.StartQueryExecution s queryExecutionInput
  let call := Effect.StartQueryExecution queryExecutionInput r.2.err
  match r.2.err with
  | some err => { state := r.1, trace := [call], outcome := .ret (none, some err) }
  | none =>
    match r.2.out with
    | none => { state := r.1, trace := [call], outcome := .panic .nilDereference }
    | some result =>
      let queryExecutionID := result.QueryExecutionId
      let g := getQueryResults unmarshal svc queryExecutionID r.1
      match g.outcome with
      | .ret (_, some err) =>
        { state := g.state, trace := call :: g.trace, outcome := .ret (none, some err) }
      | .ret (results, none) =>
        { state := g.state, trace := call :: g.trace, outcome := .ret (results, none) }
      | .panic p => { state := g.state, trace := call :: g.trace, outcome := .panic p }
      | .exit c => { state := g.state, trace := call :: g.trace, outcome := .exit c }

/-! ## handler -/

structure APIGatewayProxyRequest where
  PathParameters : List (String × String)
deriving DecidableEq, Repr

structure APIGatewayProxyResponse where
  StatusCode : Int
  Body : String
deriving DecidableEq, Repr

/-- Map read `req.PathParameters[key]`: the empty string when the key is
missing. -/
def pathParameter (m : List (String × String)) (key : String) : String :=
  match m with
  | [] => ""
  | (k, v) :: rest => if k = key then v else pathParameter rest key

/-- Lower-case hexadecimal digit. -/
def hexDigit (n : Nat) : Char :=
  if n < 10 then Char.ofNat (48 + n) else Char.ofNat (87 + n)

/-- Escape sequence of the form backslash, u and four hexadecimal digits. -/
def unicodeEscape (n : Nat) : List Char :=
  ['\\', 'u', hexDigit (n / 4096 % 16), hexDigit (n / 256 % 16),
   hexDigit (n / 16 % 16), hexDigit (n % 16)]

/-- How `encoding/json` writes one character of a string (HTML escaping on,
as in `json.Marshal`). -/
def encodeChar (c : Char) : List Char :=
  if c = '"' then ['\\', '"']
  else if c = '\\' then ['\\', '\\']
  else if c = '\n' then ['\\', 'n']
  else if c = '\r' then ['\\', 'r']
  else if c = '\t' then ['\\', 't']
  else if c = Char.ofNat 8 then ['\\', 'b']
  else if c = Char.ofNat 12 then ['\\', 'f']
  else if c.toNat < 32 ∨ c = '<' ∨ c = '>' ∨ c = '&' ∨ c.toNat = 8232 ∨ c.toNat = 8233 then
    unicodeEscape c.toNat
  else [c]

/-- JSON encoding of a Go string. -/
def encodeString (s : String) : String :=
  String.mk ('"' :: (s.toList.flatMap encodeChar ++ ['"']))

/-- JSON encoding of `*ErroDetail` under its struct tags. -/
def encodeErroDetail : Option ErroDetail → String
  | none => "null"
  | some d => "\x7b\"descricao\":" ++ encodeString d.Descricao ++ "\x7d"

/-- JSON encoding of an `Event` under its struct tags. -/
def encodeEvent (e : Event) : String :=
  "\x7b\"name\":" ++ encodeString e.Name ++ ",\"data\":" ++ encodeString e.Data ++
    ",\"status\":" ++ encodeString e.Status ++ ",\"erro\":" ++
    encodeErroDetail e.ErroDetail ++ "\x7d"

/-- Call `json.Marshal(athenaResult)` for a `[]Event`: a nil slice is
written `null`, a non-nil one as an array; the call never fails on this type. -/
def jsonMarshal (athenaResult : Slice Event) : String × Option GoError :=
  match athenaResult with
  | none => ("null", none)
  | some l => ("[" ++ ",".intercalate (l.map encodeEvent) ++ "]", none)

/-- The Lambda handler, given the client that `athena.New` builds and its
initial state. -/
def handler {σ : Type} (unmarshal : Unmarshal) (svc : AthenaClient σ)
    (req : APIGatewayProxyRequest) (s : σ) :
    Run σ (APIGatewayProxyResponse × Option GoError) :=
  let id := pathParameter req.PathParameters "id"
  if id = "" then
    { state := s, trace := []
      outcome := .ret ({ StatusCode := 400, Body := "id obrigatorio" }, none) }
  else
    let q := queryAthena unmarshal svc id s
    match q.outcome with
    | .panic p => { state := q.state, trace := q.trace, outcome := .panic p }
    | .exit c => { state := q.state, trace := q.trace, outcome := .exit c }
    | .ret (_, some err) =>
      { state := q.state
        trace := q.trace ++ [Effect.Println ["Erro ao consultar Athena: ", err.msg]]
        outcome := .ret ({ StatusCode := 500, Body := "Erro ao consultar Athena" }, none) }
    | .ret (athenaResult, none) =>
      match jsonMarshal athenaResult with
      | (_, some err) =>
        { state := q.state
          trace := q.trace ++ [Effect.Println ["Erro ao serializar resultado: ", err.msg]]
          outcome := .ret ({ StatusCode := 500, Body := "Erro ao serializar resultado" }, none) }
      | (res, none) =>
        { state := q.state, trace := q.trace
          outcome := .ret ({ StatusCode := 200, Body := res }, none) }

/-! ## A decoder for `json.Unmarshal` into `map[string]interface{}`

The theorems below hold for every decoder; this one instantiates them on
concrete texts. -/

/-- Drop leading JSON whitespace. -/
def skipSpace : List Char → List Char
  | [] => []
  | c :: cs => if c = ' ' ∨ c = '\t' ∨ c = '\n' ∨ c = '\r' then skipSpace cs else c :: cs

/-- Value of a hexadecimal digit. -/
def hexValue (c : Char) : Option Nat :=
  if '0' ≤ c ∧ c ≤ '9' then some (c.toNat - 48)
  else if 'a' ≤ c ∧ c ≤ 'f' then some (c.toNat - 87)
  else if 'A' ≤ c ∧ c ≤ 'F' then some (c.toNat - 55)
  else none

/-- Value of four hexadecimal digits. -/
def hex4 (a b c d : Char) : Option Nat :=
  match hexValue a, hexValue b, hexValue c, hexValue d with
  | some x, some y, some z, some w => some (x * 4096 + y * 256 + z * 16 + w)
  | _, _, _, _ => none

/-- Characters of a string literal after its opening quote, read up to the
closing quote: the decoded characters (in reverse in `acc`) and the rest. -/
def readString : Nat → List Char → List Char → Option (String × List Char)
  | 0, _, _ => none
  | _ + 1, [], _ => none
  | fuel + 1, c :: cs, acc =>
    if c = '"' then some (String.mk acc.reverse, cs)
    else if c = '\\' then
      match cs with
      | '"' :: rest => readString fuel rest ('"' :: acc)
      | '\\' :: rest => readString fuel rest ('\\' :: acc)
      | '/' :: rest => readString fuel rest ('/' :: acc)
      | 'b' :: rest => readString fuel rest (Char.ofNat 8 :: acc)
      | 'f' :: rest => readString fuel rest (Char.ofNat 12 :: acc)
      | 'n' :: rest => readString fuel rest ('\n' :: acc)
      | 'r' :: rest => readString fuel rest ('\r' :: acc)
      | 't' :: rest => readString fuel rest ('\t' :: acc)
      | 'u' :: a :: b :: x :: d :: rest =>
        match hex4 a b x d with
        | none => none
        | some hi =>
          if 55296 ≤ hi ∧ hi < 56320 then
            match rest with
            | '\\' :: 'u' :: a2 :: b2 :: x2 :: d2 :: rest2 =>
              match hex4 a2 b2 x2 d2 with
              | none => none
              | some lo =>
                if 56320 ≤ lo ∧ lo < 57344 then
                  readString fuel rest2
                    (Char.ofNat (65536 + (hi - 55296) * 1024 + (lo - 56320)) :: acc)
                else readString fuel rest (Char.ofNat 65533 :: acc)
            | _ => readString fuel rest (Char.ofNat 65533 :: acc)
          else if 56320 ≤ hi ∧ hi < 57344 then readString fuel rest (Char.ofNat 65533 :: acc)
          else readString fuel rest (Char.ofNat hi :: acc)
      | _ => none
    else if c.toNat < 32 then none
    else readString fuel cs (c :: acc)

/-- Longest run of decimal digits at the front. -/
def readDigits : List Char → List Char × List Char
  | [] => ([], [])
  | c :: cs =>
    if '0' ≤ c ∧ c ≤ '9' then
      let r := readDigits cs
      (c :: r.1, r.2)
    else ([], c :: cs)

/-- Integer part of a number: a single 0, or a digit 1-9 and more digits. -/
def readInt (cs : List Char) : Option (List Char × List Char) :=
  match cs with
  | '0' :: rest => some (['0'], rest)
  | c :: rest =>
    if '1' ≤ c ∧ c ≤ '9' then
      let r := readDigits rest
      some (c :: r.1, r.2)
    else none
  | [] => none

/-- Optional fraction of a number. -/
def readFrac (cs : List Char) : Option (List Char × List Char) :=
  match cs with
  | '.' :: rest =>
    match readDigits rest with
    | ([], _) => none
    | (ds, rest2) => some ('.' :: ds, rest2)
  | _ => some ([], cs)

/-- Optional exponent of a number. -/
def readExp (cs : List Char) : Option (List Char × List Char) :=
  match cs with
  | e :: rest =>
    if e = 'e' ∨ e = 'E' then
      let signed : List Char × List Char :=
        match rest with
        | '+' :: r => (['+'], r)
        | '-' :: r => (['-'], r)
        | _ => ([], rest)
      match readDigits signed.2 with
      | ([], _) => none
      | (ds, rest2) => some (e :: (signed.1 ++ ds), rest2)
    else some ([], cs)
  | [] => some ([], [])

/-- Number literal at the front. -/
def readNumber (cs : List Char) : Option (String × List Char) :=
  let signed : List Char × List Char :=
    match cs with
    | '-' :: r => (['-'], r)
    | _ => ([], cs)
  match readInt signed.2 with
  | none => none
  | some (i, r1) =>
    match readFrac r1 with
    | none => none
    | some (f, r2) =>
      match readExp r2 with
      | none => none
      | some (e, r3) => some (String.mk (signed.1 ++ i ++ f ++ e), r3)

/-- First error saved while decoding: an earlier one is kept. -/
def firstSaved (a b : Option GoError) : Option GoError :=
  match a with
  | some e => some e
  | none => b

/-- Ten to the power `n`. -/
def pow10 : Nat → Nat
  | 0 => 1
  | n + 1 => 10 * pow10 n

/-- Number written by a run of decimal digits. -/
def digitsValue (ds : List Char) : Nat :=
  ds.foldl (fun acc d => 10 * acc + (d.toNat - 48)) 0

/-- Least magnitude that `strconv.ParseFloat(s, 64)` rounds to infinity:
2^1024 - 2^970, half-way between the largest float64 and 2^1024. -/
def float64Overflow : Nat :=
  179769313486231580793728971405303415079934132710037826936173778980444968292764750946649017977587207096330286416692887910946555547851940402630657488671505820681908902000708383676273854845817711531764475730270069855571366959622842914819860834936475292719074168444365510704342711559699508093042880177904174497792

/-- Whether a number literal is out of the float64 range, so that
`strconv.ParseFloat` returns a range error. The mantissa `m` has `n` digits;
the literal stands for `m * 10 ^ (exponent - fraction digits)`. -/
def overflowsFloat64 (lit : List Char) : Bool :=
  let unsigned : List Char :=
    match lit with
    | '-' :: r => r
    | _ => lit
  let ip := readDigits unsigned
  let fp : List Char × List Char :=
    match ip.2 with
    | '.' :: r => readDigits r
    | _ => ([], ip.2)
  let ex : Bool × Nat :=
    match fp.2 with
    | _ :: '-' :: r => (true, digitsValue r)
    | _ :: '+' :: r => (false, digitsValue r)
    | _ :: r => (false, digitsValue r)
    | [] => (false, 0)
  let m := digitsValue (ip.1 ++ fp.1)
  let n := (ip.1 ++ fp.1).length
  if m = 0 then false
  else if ex.1 = false ∧ fp.1.length ≤ ex.2 then
    if 309 < ex.2 - fp.1.length then true
    else decide (float64Overflow ≤ m * pow10 (ex.2 - fp.1.length))
  else
    let k := if ex.1 then ex.2 + fp.1.length else fp.1.length - ex.2
    if n ≤ 308 ∨ n ≤ k then false
    else decide (float64Overflow * pow10 k ≤ m)

/-- The error `convertNumber` saves for a literal out of range. -/
def rangeError (lit : String) : GoError :=
  { msg := "json: cannot unmarshal number " ++ lit ++ " into Go value of type float64" }

mutual
/-- JSON value at the front (no leading whitespace), with the first error
saved while decoding it. -/
def readValue : Nat → List Char → Option (JSONValue × List Char × Option GoError)
  | 0, _ => none
  | fuel + 1, cs =>
    match cs with
    | 'n' :: 'u' :: 'l' :: 'l' :: rest => some (.null, rest, none)
    | 't' :: 'r' :: 'u' :: 'e' :: rest => some (.bool true, rest, none)
    | 'f' :: 'a' :: 'l' :: 's' :: 'e' :: rest => some (.bool false, rest, none)
    | '"' :: rest =>
      match readString (rest.length + 1) rest [] with
      | none => none
      | some (s, rest2) => some (.string s, rest2, none)
    | '[' :: rest =>
      match skipSpace rest with
      | ']' :: rest2 => some (.array [], rest2, none)
      | rest2 =>
        match readElems fuel rest2 with
        | none => none
        | some (elems, rest3, saved) => some (.array elems, rest3, saved)
    | '\x7b' :: rest =>
      match skipSpace rest with
      | '\x7d' :: rest2 => some (.object [], rest2, none)
      | rest2 =>
        match readFields fuel rest2 [] none with
        | none => none
        | some (fields, rest3, saved) => some (.object fields, rest3, saved)
    | _ =>
      match readNumber cs with
      | none => none
      | some (lit, rest) =>
        some (.number lit, rest,
          if overflowsFloat64 lit.toList then some (rangeError lit) else none)
/-- Elements of a non-empty array up to the closing bracket. -/
def readElems : Nat → List Char → Option (List JSONValue × List Char × Option GoError)
  | 0, _ => none
  | fuel + 1, cs =>
    match readValue fuel cs with
    | none => none
    | some (v, rest, saved) =>
      match skipSpace rest with
      | ']' :: rest2 => some ([v], rest2, saved)
      | ',' :: rest2 =>
        match readElems fuel (skipSpace rest2) with
        | none => none
        | some (vs, rest3, saved2) => some (v :: vs, rest3, firstSaved saved saved2)
      | _ => none
/-- Members of a non-empty object up to the closing brace; a repeated key
overwrites the earlier value. -/
def readFields : Nat → List Char → JSONMap → Option GoError →
    Option (JSONMap × List Char × Option GoError)
  | 0, _, _, _ => none
  | fuel + 1, cs, acc, saved =>
    match cs with
    | '"' :: rest =>
      match readString (rest.length + 1) rest [] with
      | none => none
      | some (key, rest2) =>
        match skipSpace rest2 with
        | ':' :: rest3 =>
          match readValue fuel (skipSpace rest3) with
          | none => none
          | some (v, rest4, saved2) =>
            match skipSpace rest4 with
            | '\x7d' :: rest5 => some (JSONMap.set acc key v, rest5, firstSaved saved saved2)
            | ',' :: rest5 =>
              readFields fuel (skipSpace rest5) (JSONMap.set acc key v) (firstSaved saved saved2)
            | _ => none
        | _ => none
    | _ => none
end

/-! ### The scanner of `encoding/json`

`json.Unmarshal` first runs `checkValid`, a byte-by-byte state machine whose
first error is the syntax error returned. -/

/-- UTF-8 bytes of a character, each byte as the character of that code. -/
def utf8Bytes (c : Char) : List Char :=
  let n := c.toNat
  if n < 128 then [c]
  else if n < 2048 then [Char.ofNat (192 + n / 64), Char.ofNat (128 + n % 64)]
  else if n < 65536 then
    [Char.ofNat (224 + n / 4096), Char.ofNat (128 + n / 64 % 64), Char.ofNat (128 + n % 64)]
  else
    [Char.ofNat (240 + n / 262144), Char.ofNat (128 + n / 4096 % 64),
     Char.ofNat (128 + n / 64 % 64), Char.ofNat (128 + n % 64)]

/-- Entry of the scanner's stack `parseState`. -/
inductive ParseState where
  | parseObjectKey
  | parseObjectValue
  | parseArrayValue
deriving DecidableEq, Repr

/-- The scanner's `step` function, as data. `stateInStringEscU k` has read
`k` hexadecimal digits; `stateLiteral name rest` still expects `rest` of the
literal `name` (true, false or null). -/
inductive ScanState where
  | stateBeginValue
  | stateBeginValueOrEmpty
  | stateBeginString
  | stateBeginStringOrEmpty
  | stateEndValue
  | stateEndTop
  | stateInString
  | stateInStringEsc
  | stateInStringEscU (k : Nat)
  | stateNeg
  | state1
  | state0
  | stateDot
  | stateDot0
  | stateE
  | stateESign
  | stateE0
  | stateLiteral (name : String) (rest : List Char)
deriving DecidableEq, Repr

/-- Go `isSpace`. -/
def isSpace (c : Char) : Bool :=
  c = ' ' ∨ c = '\t' ∨ c = '\r' ∨ c = '\n'

/-- Decimal digit. -/
def isDigit (c : Char) : Bool :=
  '0' ≤ c ∧ c ≤ '9'

/-- Two lower-case hexadecimal digits of a byte. -/
def hex2 (n : Nat) : List Char :=
  [hexDigit (n / 16 % 16), hexDigit (n % 16)]

/-- Body of `strconv.Quote(string(c))` for a byte `c` other than the double
quote: the character itself when printable, an escape otherwise. -/
def quoteRune (c : Char) : List Char :=
  let n := c.toNat
  if c = '\\' then ['\\', '\\']
  else if (32 ≤ n ∧ n ≤ 126) ∨ (161 ≤ n ∧ n ≤ 255 ∧ n ≠ 173) then [c]
  else if n = 7 then ['\\', 'a']
  else if n = 8 then ['\\', 'b']
  else if n = 12 then ['\\', 'f']
  else if n = 10 then ['\\', 'n']
  else if n = 13 then ['\\', 'r']
  else if n = 9 then ['\\', 't']
  else if n = 11 then ['\\', 'v']
  else if n < 32 ∨ n = 127 then '\\' :: 'x' :: hex2 n
  else '\\' :: 'u' :: '0' :: '0' :: hex2 n

/-- Go `quoteChar`: the byte between single quotes. -/
def quoteChar (c : Char) : String :=
  if c = Char.ofNat 39 then String.mk [Char.ofNat 39, '\\', Char.ofNat 39, Char.ofNat 39]
  else if c = '"' then String.mk [Char.ofNat 39, '"', Char.ofNat 39]
  else String.mk (Char.ofNat 39 :: (quoteRune c ++ [Char.ofNat 39]))

/-- Go `scanner.error`: the message of the syntax error. -/
def scanError (c : Char) (context : String) : String :=
  "invalid character " ++ quoteChar c ++ " " ++ context

/-- Go `pushParseState`, with `maxNestingDepth = 10000`. -/
def pushParseState (c : Char) (stack : List ParseState) (newParseState : ParseState)
    (successState : ScanState) : Except String (ScanState × List ParseState) :=
  if (newParseState :: stack).length ≤ 10000 then .ok (successState, newParseState :: stack)
  else .error (scanError c "exceeded max depth")

/-- Go `stateEndTop`. -/
def stateEndTop (c : Char) : Except String (ScanState × List ParseState) :=
  if isSpace c then .ok (.stateEndTop, []) else .error (scanError c "after top-level value")

/-- Go `popParseState`. -/
def popParseState (rest : List ParseState) : ScanState × List ParseState :=
  match rest with
  | [] => (.stateEndTop, [])
  | _ :: _ => (.stateEndValue, rest)

/-- Go `stateEndValue`. -/
def stateEndValue (stack : List ParseState) (c : Char) :
    Except String (ScanState × List ParseState) :=
  match stack with
  | [] => stateEndTop c
  | ps :: rest =>
    if isSpace c then .ok (.stateEndValue, stack)
    else
      match ps with
      | .parseObjectKey =>
        if c = ':' then .ok (.stateBeginValue, .parseObjectValue :: rest)
        else .error (scanError c "after object key")
      | .parseObjectValue =>
        if c = ',' then .ok (.stateBeginString, .parseObjectKey :: rest)
        else if c = '\x7d' then .ok (popParseState rest)
        else .error (scanError c "after object key:value pair")
      | .parseArrayValue =>
        if c = ',' then .ok (.stateBeginValue, stack)
        else if c = ']' then .ok (popParseState rest)
        else .error (scanError c "after array element")

/-- Go `stateBeginValue` on a byte that is no space. -/
def stateBeginValue (stack : List ParseState) (c : Char) :
    Except String (ScanState × List ParseState) :=
  if c = '\x7b' then pushParseState c stack .parseObjectKey .stateBeginStringOrEmpty
  else if c = '[' then pushParseState c stack .parseArrayValue .stateBeginValueOrEmpty
  else if c = '"' then .ok (.stateInString, stack)
  else if c = '-' then .ok (.stateNeg, stack)
  else if c = '0' then .ok (.state0, stack)
  else if c = 't' then .ok (.stateLiteral "true" ['r', 'u', 'e'], stack)
  else if c = 'f' then .ok (.stateLiteral "false" ['a', 'l', 's', 'e'], stack)
  else if c = 'n' then .ok (.stateLiteral "null" ['u', 'l', 'l'], stack)
  else if '1' ≤ c ∧ c ≤ '9' then .ok (.state1, stack)
  else .error (scanError c "looking for beginning of value")

/-- Go `state0`: after the integer part of a number. -/
def state0 (stack : List ParseState) (c : Char) :
    Except String (ScanState × List ParseState) :=
  if c = '.' then .ok (.stateDot, stack)
  else if c = 'e' ∨ c = 'E' then .ok (.stateE, stack)
  else stateEndValue stack c

/-- Go `stateESign`: after the exponent mark and its sign. -/
def stateESign (stack : List ParseState) (c : Char) :
    Except String (ScanState × List ParseState) :=
  if isDigit c then .ok (.stateE0, stack)
  else .error (scanError c "in exponent of numeric literal")

/-- One step of the scanner: `s.step(s, c)`. -/
def scanStep (st : ScanState) (stack : List ParseState) (c : Char) :
    Except String (ScanState × List ParseState) :=
  match st with
  | .stateBeginValue =>
    if isSpace c then .ok (st, stack) else stateBeginValue stack c
  | .stateBeginValueOrEmpty =>
    if isSpace c then .ok (st, stack)
    else if c = ']' then stateEndValue stack c
    else stateBeginValue stack c
  | .stateBeginStringOrEmpty =>
    if isSpace c then .ok (st, stack)
    else if c = '\x7d' then stateEndValue (.parseObjectValue :: stack.tail) c
    else if c = '"' then .ok (.stateInString, stack)
    else .error (scanError c "looking for beginning of object key string")
  | .stateBeginString =>
    if isSpace c then .ok (st, stack)
    else if c = '"' then .ok (.stateInString, stack)
    else .error (scanError c "looking for beginning of object key string")
  | .stateEndValue => stateEndValue stack c
  | .stateEndTop => stateEndTop c
  | .stateInString =>
    if c = '"' then .ok (.stateEndValue, stack)
    else if c = '\\' then .ok (.stateInStringEsc, stack)
    else if c.toNat < 32 then .error (scanError c "in string literal")
    else .ok (.stateInString, stack)
  | .stateInStringEsc =>
    if c = 'b' ∨ c = 'f' ∨ c = 'n' ∨ c = 'r' ∨ c = 't' ∨ c = '\\' ∨ c = '/' ∨ c = '"' then
      .ok (.stateInString, stack)
    else if c = 'u' then .ok (.stateInStringEscU 0, stack)
    else .error (scanError c "in string escape code")
  | .stateInStringEscU k =>
    if (hexValue c).isSome then
      if k < 3 then .ok (.stateInStringEscU (k + 1), stack) else .ok (.stateInString, stack)
    else .error (scanError c "in \\u hexadecimal character escape")
  | .stateNeg =>
    if c = '0' then .ok (.state0, stack)
    else if '1' ≤ c ∧ c ≤ '9' then .ok (.state1, stack)
    else .error (scanError c "in numeric literal")
  | .state1 =>
    if isDigit c then .ok (.state1, stack) else state0 stack c
  | .state0 => state0 stack c
  | .stateDot =>
    if isDigit c then .ok (.stateDot0, stack)
    else .error (scanError c "after decimal point in numeric literal")
  | .stateDot0 =>
    if isDigit c then .ok (.stateDot0, stack)
    else if c = 'e' ∨ c = 'E' then .ok (.stateE, stack)
    else stateEndValue stack c
  | .stateE =>
    if c = '+' ∨ c = '-' then .ok (.stateESign, stack) else stateESign stack c
  | .stateESign => stateESign stack c
  | .stateE0 =>
    if isDigit c then .ok (.stateE0, stack) else stateEndValue stack c
  | .stateLiteral name rest =>
    match rest with
    | [] => stateEndValue stack c
    | e :: more =>
      if c = e then
        match more with
        | [] => .ok (.stateEndValue, stack)
        | _ :: _ => .ok (.stateLiteral name more, stack)
      else .error (scanError c ("in literal " ++ name ++ " (expecting " ++ quoteChar e ++ ")"))

/-- The loop of `checkValid` over the bytes. -/
def scanBytes : ScanState → List ParseState → List Char →
    Except String (ScanState × List ParseState)
  | st, stack, [] => .ok (st, stack)
  | st, stack, c :: cs =>
    match scanStep st stack c with
    | .error m => .error m
    | .ok r => scanBytes r.1 r.2 cs

/-- Go `checkValid`: the message of the syntax error of the text, if it has
one. At the end of the input `eof` feeds one space to close a number. -/
def checkValid (data : List Char) : Option String :=
  match scanBytes .stateBeginValue [] data with
  | .error m => some m
  | .ok (.stateEndTop, _) => none
  | .ok (st, stack) =>
    match scanStep st stack ' ' with
    | .error m => some m
    | .ok (.stateEndTop, _) => none
    | .ok _ => some "unexpected end of JSON input"

/-- The type error of `json.Unmarshal` for a top-level value of the kind
`value` stored into the map. -/
def mapTypeError (value : String) : GoError :=
  { msg := "json: cannot unmarshal " ++ value ++
      " into Go value of type map[string]interface \x7b\x7d" }

/-- Model of `json.Unmarshal` into a `map[string]interface{}`. The text is
first checked by the scanner, whose error is returned as it is; then it is
decoded: an object fills the map, `null` leaves it nil, any other value is a
type error, and a number out of the float64 range inside the object is the
error saved by `convertNumber`. Texts are Unicode strings, so invalid UTF-8
does not occur. -/
def jsonUnmarshal : Unmarshal := fun text =>
  match checkValid (text.toList.flatMap utf8Bytes) with
  | some m => .error { msg := m }
  | none =>
    let cs := skipSpace text.toList
    match readValue (2 * cs.length + 2) cs with
    | none => .error { msg := "unexpected end of JSON input" }
    | some (v, _, saved) =>
      match v with
      | .object fields =>
        match saved with
        | some err => .error err
        | none => .ok fields
      | .null => .ok []
      | .array _ => .error (mapTypeError "array")
      | .string _ => .error (mapTypeError "string")
      | .number _ => .error (mapTypeError "number")
      | .bool _ => .error (mapTypeError "bool")

/-! ## Vocabulary of the specification -/

/-- Row whose first four columns are the non-null strings `c0`, `c1`, `c2`
and `c3`; any further columns are left open. -/
def HasColumns (row : Option Row) (c0 c1 c2 c3 : String) : Prop :=
  ∃ more : List (Option Datum),
    row = some ⟨some ⟨some c0⟩ :: some ⟨some c1⟩ :: some ⟨some c2⟩ :: some ⟨some c3⟩ :: more⟩

/-- Row with at least four columns whose first four values are non-null. -/
def hasFourColumns : Option Row → Bool
  | some ⟨some ⟨some _⟩ :: some ⟨some _⟩ :: some ⟨some _⟩ :: some ⟨some _⟩ :: _⟩ => true
  | _ => false

/-- Row whose fourth column is a non-null text that the decoder accepts. -/
def decodes (unmarshal : Unmarshal) : Option Row → Bool
  | some ⟨_ :: _ :: _ :: some ⟨some erro⟩ :: _⟩ =>
    match unmarshal erro with
    | .ok _ => true
    | .error _ => false
  | _ => false

/-- JSON value that is an object with a string under "descricao". -/
def HasDescricao (v : JSONValue) (desc : String) : Prop :=
  ∃ fields : JSONMap, v = .object fields ∧ JSONMap.get fields "descricao" = some (.string desc)

/-- The event that a data row stands for: its first three columns verbatim
and the detail read from the decoded fourth column. -/
def RowEvent (unmarshal : Unmarshal) (row : Option Row) (ev : Event) : Prop :=
  ∃ (c3 : String) (txtInfo : JSONMap),
    HasColumns row ev.Name ev.Data ev.Status c3 ∧ unmarshal c3 = .ok txtInfo ∧
      ev.ErroDetail = erroDetailOf txtInfo

/-- Number of status checks (`GetQueryExecution` calls) in a trace. -/
def statusChecks : List Effect → Nat
  | [] => 0
  | .GetQueryExecution _ _ :: rest => statusChecks rest + 1
  | _ :: rest => statusChecks rest

/-- Number of result fetches (`GetQueryResults` calls) in a trace. -/
def fetches : List Effect → Nat
  | [] => 0
  | .GetQueryResults _ _ :: rest => fetches rest + 1
  | _ :: rest => fetches rest

/-- Number of submissions (`StartQueryExecution` calls) in a trace. -/
def submissions : List Effect → Nat
  | [] => 0
  | .StartQueryExecution _ _ :: rest => submissions rest + 1
  | _ :: rest => submissions rest

/-- The error a remote call returned; `none` for a call that succeeded and
for an effect that is no remote call. -/
def Effect.remoteErr : Effect → Option GoError
  | .StartQueryExecution _ err => err
  | .GetQueryExecution _ err => err
  | .GetQueryResults _ err => err
  | _ => none

/-! ## Test doubles -/

/-- Row of non-null string columns. -/
def mkRow (cols : List String) : Option Row :=
  some { Data := cols.map fun c => some { VarCharValue := some c } }

/-- Successful status reply carrying the state `st`. -/
def statusReply (st : String) : Reply GetQueryExecutionOutput :=
  { out := some { QueryExecution := some { Status := some { State := some st } } }, err := none }

/-- Successful fetch reply carrying the rows `rows`. -/
def resultsReply (rows : List (Option Row)) : Reply GetQueryResultsOutput :=
  { out := some { ResultSet := some { Rows := rows } }, err := none }

/-- Successful submission reply carrying the handle `id`. -/
def startReply (id : String) : Reply StartQueryExecutionOutput :=
  { out := some { QueryExecutionId := some id }, err := none }

/-- Failed remote call. -/
def errorReply {α : Type} (msg : String) : Reply α :=
  { out := none, err := some { msg := msg } }

/-- Mock client in the manner of `MockAthenaClient`: canned replies for the
submission and the fetch, and the reply of the n-th status check (from 0)
given by `status`.  Its state counts the status checks made. -/
def mockSvc (start : Reply StartQueryExecutionOutput)
    (status : Nat → Reply GetQueryExecutionOutput)
    (results : Reply GetQueryResultsOutput) : AthenaClient Nat where
  StartQueryExecution := fun n _ => (n, start)
  GetQueryExecution := fun n _ => (n + 1, status n)
  GetQueryResults := fun n _ => (n, results)

/-- Header row as Athena returns it first. -/
def headerRow : Option Row := mkRow ["name", "data", "status", "erro"]

/-- The row of `TestHandler`. -/
def testRow : Option Row :=
  mkRow ["event1", "2024-08-24T00:00:00Z", "status1",
    "\x7b\"erros\":[\x7b\"descricao\":\"error description\"\x7d]\x7d"]

/-- Row whose error payload has no "erros" key. -/
def plainRow : Option Row := mkRow ["event2", "2024-08-25T00:00:00Z", "status2", "\x7b\x7d"]

/-- Row whose error payload is not JSON. -/
def notJsonRow : Option Row := mkRow ["event3", "2024-08-26T00:00:00Z", "status3", "not-json"]

/-- Row with a single column. -/
def shortRow : Option Row := mkRow ["event4"]

/-- Row of four columns whose first value is NULL. -/
def nullNameRow : Option Row :=
  some ⟨[some ⟨none⟩, some ⟨some "2024-08-28T00:00:00Z"⟩, some ⟨some "status6"⟩,
    some ⟨some "\x7b\x7d"⟩]⟩

/-- Row whose payload lists an entry without description before two with one. -/
def manyErrosRow : Option Row :=
  mkRow ["event5", "2024-08-27T00:00:00Z", "status5",
    "\x7b\"erros\":[\x7b\"foo\":\"bar\"\x7d,\x7b\"descricao\":\"x\"\x7d,\x7b\"descricao\":\"y\"\x7d]\x7d"]

/-! ## Vocabulary of the polling claims -/

/-- Client state after `n` status checks made from state `s`. -/
def pollState {σ : Type} (svc : AthenaClient σ) (queryExecutionID : Option String) :
    Nat → σ → σ
  | 0, s => s
  | n + 1, s =>
    pollState svc queryExecutionID n
      (svc.GetQueryExecution s { QueryExecutionId := queryExecutionID }).1

/-- Reply to status check number `n + 1` of a run of checks made from `s`. -/
def pollReply {σ : Type} (svc : AthenaClient σ) (queryExecutionID : Option String)
    (n : Nat) (s : σ) : Reply GetQueryExecutionOutput :=
  (svc.GetQueryExecution (pollState svc queryExecutionID n s)
    { QueryExecutionId := queryExecutionID }).2

/-- Status check that returns no error and reports the state `st`. -/
def Reports (reply : Reply GetQueryExecutionOutput) (st : String) : Prop :=
  reply.err = none ∧ statusOf reply.out = some st

/-- Effects of `n` rounds that each find a non-terminal status: the status
check, then the sleep. -/
def pollTrace (queryExecutionID : Option String) : Nat → List Effect
  | 0 => []
  | n + 1 =>
    Effect.GetQueryExecution { QueryExecutionId := queryExecutionID } none ::
      Effect.Sleep waitInterval :: pollTrace queryExecutionID n

/-- No remote call of the trace returned an error. -/
def Quiet (tr : List Effect) : Prop :=
  ∀ c ∈ tr, Effect.remoteErr c = none

/-- A run in which a remote error, if any, ends everything: either no remote
call failed, or the failing call is the last effect, no fetch precedes it, and
the run returns a nil result with exactly that error. -/
def StopsAtError {σ : Type} (r : Run σ EventsResult) : Prop :=
  Quiet r.trace ∨
    ∃ pre c e, r.trace = pre ++ [c] ∧ Quiet pre ∧ fetches pre = 0 ∧
      Effect.remoteErr c = some e ∧ r.outcome = .ret (none, some e)

/-- Status replies that report the states of `states` in turn and `last`
from then on. -/
def statusScript (states : List String) (last : String) :
    Nat → Reply GetQueryExecutionOutput :=
  fun n => statusReply (states.getD n last)

/-- Status replies that report Running until check number `k + 1`, which
fails with the message `msg`. -/
def failingAt (k : Nat) (msg : String) : Nat → Reply GetQueryExecutionOutput :=
  fun n => if n = k then errorReply msg else statusReply QueryExecutionStateRunning

/-- The request of `TestHandler`. -/
def testRequest : APIGatewayProxyRequest := { PathParameters := [("id", "test-id")] }

/-- The Event that `TestHandler` expects. -/
def testEvent : Event :=
  { Name := "event1", Data := "2024-08-24T00:00:00Z", Status := "status1",
    ErroDetail := some { Descricao := "error description" } }

/-- The body that `TestHandler` expects: `json.Marshal` of the one expected
Event. -/
def testBody : String :=
  "[\x7b\"name\":\"event1\",\"data\":\"2024-08-24T00:00:00Z\",\"status\":\"status1\",\"erro\":\x7b\"descricao\":\"error description\"\x7d\x7d]"

/-! # Theorems -/

/-! ## Reading the columns of a row -/

theorem hasFourColumns_iff (row : Option Row) :
    hasFourColumns row = true ↔ ∃ c0 c1 c2 c3, HasColumns row c0 c1 c2 c3 := by
  constructor
  · intro h
    unfold hasFourColumns at h
    split at h
    · rename_i a b c d more
      exact ⟨a, b, c, d, more, rfl⟩
    · simp at h
  · rintro ⟨c0, c1, c2, c3, more, rfl⟩
    rfl

theorem column_of_hasColumns {row : Option Row} {c0 c1 c2 c3 : String}
    (h : HasColumns row c0 c1 c2 c3) :
    column row 0 = .ok c0 ∧ column row 1 = .ok c1 ∧ column row 2 = .ok c2 ∧
      column row 3 = .ok c3 := by
  obtain ⟨more, rfl⟩ := h
  exact ⟨rfl, rfl, rfl, rfl⟩

theorem column_ok_iff (row : Option Row) (i : Nat) (v : String) :
    column row i = .ok v ↔ ∃ r, row = some r ∧ r.Data.get? i = some (some ⟨some v⟩) := by
  unfold column
  constructor
  · intro h
    split at h
    · simp at h
    · rename_i r
      split at h
      · simp at h
      · simp at h
      · rename_i d hd
        split at h
        · simp at h
        · rename_i w hw
          simp only [Except.ok.injEq] at h
          subst h
          refine ⟨r, rfl, ?_⟩
          rw [hd]
          cases d
          simp_all
  · rintro ⟨r, rfl, hr⟩
    simp only [hr]

theorem hasColumns_of_column {row : Option Row} {c0 c1 c2 c3 : String}
    (h0 : column row 0 = .ok c0) (h1 : column row 1 = .ok c1) (h2 : column row 2 = .ok c2)
    (h3 : column row 3 = .ok c3) : HasColumns row c0 c1 c2 c3 := by
  rw [column_ok_iff] at h0 h1 h2 h3
  obtain ⟨r, rfl, h0⟩ := h0
  obtain ⟨r1, hr1, h1⟩ := h1
  obtain ⟨r2, hr2, h2⟩ := h2
  obtain ⟨r3, hr3, h3⟩ := h3
  cases hr1; cases hr2; cases hr3
  obtain ⟨data⟩ := r
  match data, h0, h1, h2, h3 with
  | a :: b :: c :: d :: more, h0, h1, h2, h3 =>
    simp at h0 h1 h2 h3
    subst h0 h1 h2 h3
    exact ⟨more, rfl⟩
  | [], h0, _, _, _ => simp at h0
  | [_], _, h1, _, _ => simp at h1
  | [_, _], _, _, h2, _ => simp at h2
  | [_, _, _], _, _, _, h3 => simp at h3

theorem decodes_of_hasColumns (unmarshal : Unmarshal) {row : Option Row}
    {c0 c1 c2 c3 : String} (h : HasColumns row c0 c1 c2 c3) :
    decodes unmarshal row = true ↔ ∃ txtInfo, unmarshal c3 = .ok txtInfo := by
  obtain ⟨more, rfl⟩ := h
  simp only [decodes]
  cases unmarshal c3 <;> simp

/-! ## One data row -/

theorem fetchResultsRow_of_hasColumns (unmarshal : Unmarshal) {row : Option Row}
    {c0 c1 c2 c3 : String} (h : HasColumns row c0 c1 c2 c3) :
    fetchResultsRow unmarshal row =
      match unmarshal c3 with
      | .error err => .fail err
      | .ok txtInfo =>
        .event { Name := c0, Data := c1, Status := c2, ErroDetail := erroDetailOf txtInfo } := by
  obtain ⟨h0, h1, h2, h3⟩ := column_of_hasColumns h
  simp only [fetchResultsRow, h0, h1, h2, h3]

theorem fetchResultsRow_panic_iff (unmarshal : Unmarshal) (row : Option Row) :
    (∃ p, fetchResultsRow unmarshal row = .panic p) ↔ hasFourColumns row = false := by
  constructor
  · rintro ⟨p, hp⟩
    by_contra hne
    have hcols : hasFourColumns row = true := by simpa using hne
    obtain ⟨c0, c1, c2, c3, hc⟩ := (hasFourColumns_iff row).1 hcols
    rw [fetchResultsRow_of_hasColumns unmarshal hc] at hp
    cases hu : unmarshal c3 <;> simp [hu] at hp
  · intro hfalse
    unfold fetchResultsRow
    cases h0 : column row 0 with
    | error p => exact ⟨p, rfl⟩
    | ok c0 =>
      cases h1 : column row 1 with
      | error p => exact ⟨p, rfl⟩
      | ok c1 =>
        cases h2 : column row 2 with
        | error p => exact ⟨p, rfl⟩
        | ok c2 =>
          cases h3 : column row 3 with
          | error p => exact ⟨p, rfl⟩
          | ok c3 =>
            have hc := (hasFourColumns_iff row).2 ⟨c0, c1, c2, c3, hasColumns_of_column h0 h1 h2 h3⟩
            rw [hfalse] at hc
            cases hc

theorem fetchResultsRow_ok_iff (unmarshal : Unmarshal) (row : Option Row) (ev : Event) :
    fetchResultsRow unmarshal row = .event ev ↔ RowEvent unmarshal row ev := by
  constructor
  · intro h
    by_cases hcols : hasFourColumns row = true
    · obtain ⟨c0, c1, c2, c3, hc⟩ := (hasFourColumns_iff row).1 hcols
      rw [fetchResultsRow_of_hasColumns unmarshal hc] at h
      cases hu : unmarshal c3 with
      | error e => simp [hu] at h
      | ok m =>
        simp only [hu, RowResult.event.injEq] at h
        subst h
        exact ⟨c3, m, hc, hu, rfl⟩
    · have hfalse : hasFourColumns row = false := by simpa using hcols
      obtain ⟨p, hp⟩ := (fetchResultsRow_panic_iff unmarshal row).2 hfalse
      rw [hp] at h
      cases h
  · rintro ⟨c3, m, hc, hu, hd⟩
    rw [fetchResultsRow_of_hasColumns unmarshal hc, hu]
    cases ev
    simp_all

theorem fetchResultsRow_ok_of_decodes (unmarshal : Unmarshal) (row : Option Row)
    (hcols : hasFourColumns row = true) (hdec : decodes unmarshal row = true) :
    ∃ ev, fetchResultsRow unmarshal row = .event ev := by
  obtain ⟨c0, c1, c2, c3, hc⟩ := (hasFourColumns_iff row).1 hcols
  obtain ⟨m, hm⟩ := (decodes_of_hasColumns unmarshal hc).1 hdec
  exact ⟨_, by rw [fetchResultsRow_of_hasColumns unmarshal hc, hm]⟩

theorem decodes_of_fetchResultsRow_ok (unmarshal : Unmarshal) (row : Option Row) (ev : Event)
    (h : fetchResultsRow unmarshal row = .event ev) :
    hasFourColumns row = true ∧ decodes unmarshal row = true := by
  obtain ⟨c3, m, hc, hu, _⟩ := (fetchResultsRow_ok_iff unmarshal row ev).1 h
  exact ⟨(hasFourColumns_iff row).2 ⟨_, _, _, _, hc⟩, (decodes_of_hasColumns unmarshal hc).2 ⟨m, hu⟩⟩

/-! ## The loop over the data rows -/

theorem toList_foldl_append (evs : List Event) (acc : Slice Event) :
    Slice.toList (evs.foldl Slice.append acc) = Slice.toList acc ++ evs := by
  induction evs generalizing acc with
  | nil => simp
  | cons ev evs ih =>
    rw [List.foldl_cons, ih]
    simp [Slice.append, Slice.toList]

theorem fetchResultsLoop_append (unmarshal : Unmarshal) {rows : List (Option Row)}
    {evs : List Event}
    (h : List.Forall₂ (fun row ev => fetchResultsRow unmarshal row = .event ev) rows evs)
    (rest : List (Option Row)) (acc : Slice Event) :
    fetchResultsLoop unmarshal (rows ++ rest) acc =
      fetchResultsLoop unmarshal rest (evs.foldl Slice.append acc) := by
  induction h generalizing acc with
  | nil => rfl
  | cons hrow _ ih =>
    simp only [List.cons_append, fetchResultsLoop, hrow, List.foldl_cons]
    exact ih _

theorem exists_forall₂_of_forall_mem {α β : Type} {R : α → β → Prop} :
    ∀ l : List α, (∀ x ∈ l, ∃ y, R x y) → ∃ l', List.Forall₂ R l l'
  | [], _ => ⟨[], List.Forall₂.nil⟩
  | x :: l, h => by
    obtain ⟨y, hy⟩ := h x (List.mem_cons_self x l)
    obtain ⟨l', hl'⟩ := exists_forall₂_of_forall_mem l fun z hz => h z (List.mem_cons_of_mem x hz)
    exact ⟨y :: l', List.Forall₂.cons hy hl'⟩

/-- The loop panics exactly when it reaches a row without its four columns:
one whose predecessors all have their columns and decode. -/
theorem fetchResultsLoop_panic_iff (unmarshal : Unmarshal) (rows : List (Option Row))
    (acc : Slice Event) :
    (∃ p, fetchResultsLoop unmarshal rows acc = .panic p) ↔
      ∃ pre bad post, rows = pre ++ bad :: post ∧
        (∀ row ∈ pre, hasFourColumns row = true ∧ decodes unmarshal row = true) ∧
        hasFourColumns bad = false := by
  induction rows generalizing acc with
  | nil =>
    constructor
    · rintro ⟨p, hp⟩
      simp [fetchResultsLoop] at hp
    · rintro ⟨pre, bad, post, h, _⟩
      simp at h
  | cons row rest ih =>
    constructor
    · rintro ⟨p, hp⟩
      cases hrow : fetchResultsRow unmarshal row with
      | panic q =>
        exact ⟨[], row, rest, rfl, by simp, (fetchResultsRow_panic_iff unmarshal row).1 ⟨q, hrow⟩⟩
      | fail e => simp [fetchResultsLoop, hrow] at hp
      | event ev =>
        simp only [fetchResultsLoop, hrow] at hp
        obtain ⟨pre, bad, post, hsplit, hpre, hbad⟩ := (ih _).1 ⟨p, hp⟩
        refine ⟨row :: pre, bad, post, by simp [hsplit], ?_, hbad⟩
        intro x hx
        rcases List.mem_cons.1 hx with rfl | hx
        · exact decodes_of_fetchResultsRow_ok unmarshal _ ev hrow
        · exact hpre x hx
    · rintro ⟨pre, bad, post, hsplit, hpre, hbad⟩
      obtain ⟨evs, hevs⟩ := exists_forall₂_of_forall_mem
        (R := fun row ev => fetchResultsRow unmarshal row = .event ev) pre
        (fun x hx => fetchResultsRow_ok_of_decodes unmarshal x (hpre x hx).1 (hpre x hx).2)
      obtain ⟨p, hp⟩ := (fetchResultsRow_panic_iff unmarshal bad).2 hbad
      refine ⟨p, ?_⟩
      rw [hsplit, fetchResultsLoop_append unmarshal hevs]
      simp [fetchResultsLoop, hp]

/-- Rows that all have their four columns never make the loop panic, and a
row among them that fails to decode makes it return an error and nil. -/
theorem fetchResultsLoop_decode_error (unmarshal : Unmarshal) (pre : List (Option Row))
    (bad : Option Row) (post : List (Option Row)) (acc : Slice Event) (e : GoError)
    (hpre : ∀ row ∈ pre, hasFourColumns row = true)
    (hbad : fetchResultsRow unmarshal bad = .fail e) :
    ∃ e', fetchResultsLoop unmarshal (pre ++ bad :: post) acc = .ret (none, some e') ∧
      ((∀ row ∈ pre, decodes unmarshal row = true) → e' = e) := by
  induction pre generalizing acc with
  | nil => exact ⟨e, by simp [fetchResultsLoop, hbad], fun _ => rfl⟩
  | cons row rest ih =>
    have hrest : ∀ x ∈ rest, hasFourColumns x = true := fun x hx =>
      hpre x (List.mem_cons_of_mem row hx)
    obtain ⟨c0, c1, c2, c3, hc⟩ := (hasFourColumns_iff row).1 (hpre row (List.mem_cons_self row rest))
    have hrow := fetchResultsRow_of_hasColumns unmarshal hc
    cases hu : unmarshal c3 with
    | error e1 =>
      rw [hu] at hrow
      refine ⟨e1, by simp [fetchResultsLoop, hrow], ?_⟩
      intro hall
      have := (decodes_of_hasColumns unmarshal hc).1 (hall row (List.mem_cons_self row rest))
      obtain ⟨m, hm⟩ := this
      rw [hu] at hm
      cases hm
    | ok m =>
      rw [hu] at hrow
      obtain ⟨e', he', himp⟩ := ih (Slice.append acc _) hrest
      refine ⟨e', by simpa [fetchResultsLoop, hrow] using he', ?_⟩
      intro hall
      exact himp fun x hx => hall x (List.mem_cons_of_mem row hx)

/-! ## fetchResults -/

theorem fetchResults_of_rows {σ : Type} (unmarshal : Unmarshal) (svc : AthenaClient σ)
    (queryExecutionID : Option String) (s : σ) (header : Option Row) (rows : List (Option Row))
    (hreply : (svc.GetQueryResults s { QueryExecutionId := queryExecutionID }).2 =
      { out := some { ResultSet := some { Rows := header :: rows } }, err := none }) :
    fetchResults unmarshal svc queryExecutionID s =
      { state := (svc.GetQueryResults s { QueryExecutionId := queryExecutionID }).1
        trace := [Effect.GetQueryResults { QueryExecutionId := queryExecutionID } none]
        outcome := fetchResultsLoop unmarshal rows none } := by
  simp only [fetchResults, hreply, dataRows]

theorem fetchResults_trace {σ : Type} (unmarshal : Unmarshal) (svc : AthenaClient σ)
    (queryExecutionID : Option String) (s : σ) :
    (fetchResults unmarshal svc queryExecutionID s).trace =
      [Effect.GetQueryResults { QueryExecutionId := queryExecutionID }
        (svc.GetQueryResults s { QueryExecutionId := queryExecutionID }).2.err] := by
  simp only [fetchResults]
  split
  · rfl
  · split <;> rfl

theorem fetchResults_error {σ : Type} (unmarshal : Unmarshal) (svc : AthenaClient σ)
    (queryExecutionID : Option String) (s : σ) (e : GoError)
    (herr : (svc.GetQueryResults s { QueryExecutionId := queryExecutionID }).2.err = some e) :
    (fetchResults unmarshal svc queryExecutionID s).outcome = .ret (none, some e) := by
  simp only [fetchResults, herr]

/-! ## The scan of the "erros" array -/

theorem scanErros_cons_of_hasDescricao (e : JSONValue) (rest : List JSONValue) (desc : String)
    (h : HasDescricao e desc) : scanErros (e :: rest) = some { Descricao := desc } := by
  obtain ⟨fields, rfl, hget⟩ := h
  simp [scanErros, hget]

theorem scanErros_cons_of_not (e : JSONValue) (rest : List JSONValue)
    (h : ∀ desc, ¬ HasDescricao e desc) : scanErros (e :: rest) = scanErros rest := by
  cases e with
  | object fields =>
    cases hget : JSONMap.get fields "descricao" with
    | none => simp [scanErros, hget]
    | some v =>
      cases v with
      | string desc => exact absurd ⟨fields, rfl, hget⟩ (h desc)
      | _ => simp [scanErros, hget]
  | _ => simp [scanErros]

theorem hasDescricao_unique {e : JSONValue} {a b : String} (ha : HasDescricao e a)
    (hb : HasDescricao e b) : a = b := by
  obtain ⟨fa, rfl, hga⟩ := ha
  obtain ⟨fb, hfb, hgb⟩ := hb
  cases hfb
  rw [hga] at hgb
  simpa using hgb

theorem scanErros_eq_some_iff (erros : List JSONValue) (d : ErroDetail) :
    scanErros erros = some d ↔
      ∃ pre e post, erros = pre ++ e :: post ∧ (∀ x ∈ pre, ∀ desc, ¬ HasDescricao x desc) ∧
        HasDescricao e d.Descricao := by
  induction erros with
  | nil =>
    constructor
    · intro h
      simp [scanErros] at h
    · rintro ⟨pre, e, post, h, _⟩
      simp at h
  | cons e rest ih =>
    by_cases he : ∃ desc, HasDescricao e desc
    · obtain ⟨desc, hdesc⟩ := he
      rw [scanErros_cons_of_hasDescricao e rest desc hdesc]
      constructor
      · intro h
        simp only [Option.some.injEq] at h
        subst h
        exact ⟨[], e, rest, rfl, by simp, hdesc⟩
      · rintro ⟨pre, e', post, hsplit, hpre, he'⟩
        cases pre with
        | nil =>
          simp only [List.nil_append, List.cons.injEq] at hsplit
          obtain ⟨rfl, -⟩ := hsplit
          have := hasDescricao_unique hdesc he'
          cases d
          simp_all
        | cons x pre =>
          simp only [List.cons_append, List.cons.injEq] at hsplit
          obtain ⟨rfl, -⟩ := hsplit
          exact absurd hdesc (hpre e (List.mem_cons_self e pre) desc)
    · have hnot : ∀ desc, ¬ HasDescricao e desc := fun desc h => he ⟨desc, h⟩
      rw [scanErros_cons_of_not e rest hnot, ih]
      constructor
      · rintro ⟨pre, e', post, hsplit, hpre, he'⟩
        refine ⟨e :: pre, e', post, by simp [hsplit], ?_, he'⟩
        intro x hx
        rcases List.mem_cons.1 hx with rfl | hx
        · exact hnot
        · exact hpre x hx
      · rintro ⟨pre, e', post, hsplit, hpre, he'⟩
        cases pre with
        | nil =>
          simp only [List.nil_append, List.cons.injEq] at hsplit
          obtain ⟨rfl, -⟩ := hsplit
          exact absurd he' (hnot _)
        | cons x pre =>
          simp only [List.cons_append, List.cons.injEq] at hsplit
          obtain ⟨rfl, rfl⟩ := hsplit
          exact ⟨pre, e', post, rfl, fun y hy => hpre y (List.mem_cons_of_mem _ hy), he'⟩

theorem erroDetailOf_eq_some_iff (txtInfo : JSONMap) (d : ErroDetail) :
    erroDetailOf txtInfo = some d ↔
      ∃ erros pre e post, JSONMap.get txtInfo "erros" = some (.array erros) ∧
        erros = pre ++ e :: post ∧ (∀ x ∈ pre, ∀ desc, ¬ HasDescricao x desc) ∧
        HasDescricao e d.Descricao := by
  unfold erroDetailOf
  split
  · rename_i erros hget
    rw [scanErros_eq_some_iff]
    constructor
    · rintro ⟨pre, e, post, h1, h2, h3⟩
      exact ⟨erros, pre, e, post, hget, h1, h2, h3⟩
    · rintro ⟨erros', pre, e, post, hget', h1, h2, h3⟩
      rw [hget] at hget'
      simp only [Option.some.injEq, JSONValue.array.injEq] at hget'
      subst hget'
      exact ⟨pre, e, post, h1, h2, h3⟩
  · rename_i hne
    constructor
    · intro h
      cases h
    · rintro ⟨erros, pre, e, post, hget, -⟩
      exact absurd hget (hne erros)

theorem exists_first_hasDescricao (erros : List JSONValue) (e : JSONValue) (desc : String)
    (hmem : e ∈ erros) (he : HasDescricao e desc) :
    ∃ pre e' post desc', erros = pre ++ e' :: post ∧
      (∀ x ∈ pre, ∀ d, ¬ HasDescricao x d) ∧ HasDescricao e' desc' := by
  induction erros with
  | nil => simp at hmem
  | cons x rest ih =>
    by_cases hx : ∃ d, HasDescricao x d
    · obtain ⟨d, hd⟩ := hx
      exact ⟨[], x, rest, d, rfl, by simp, hd⟩
    · rcases List.mem_cons.1 hmem with rfl | hmem
      · exact absurd ⟨desc, he⟩ hx
      · obtain ⟨pre, e', post, desc', hsplit, hpre, he'⟩ := ih hmem
        refine ⟨x :: pre, e', post, desc', by simp [hsplit], ?_, he'⟩
        intro y hy
        rcases List.mem_cons.1 hy with rfl | hy
        · exact fun d h => hx ⟨d, h⟩
        · exact hpre y hy

theorem erroDetailOf_isSome_iff (txtInfo : JSONMap) :
    (erroDetailOf txtInfo).isSome = true ↔
      ∃ erros, JSONMap.get txtInfo "erros" = some (.array erros) ∧
        ∃ e ∈ erros, ∃ desc, HasDescricao e desc := by
  rw [Option.isSome_iff_exists]
  constructor
  · rintro ⟨d, hd⟩
    obtain ⟨erros, pre, e, post, hget, hsplit, -, he⟩ := (erroDetailOf_eq_some_iff txtInfo d).1 hd
    exact ⟨erros, hget, e, by simp [hsplit], d.Descricao, he⟩
  · rintro ⟨erros, hget, e, hmem, desc, he⟩
    obtain ⟨pre, e', post, desc', hsplit, hpre, he'⟩ := exists_first_hasDescricao erros e desc hmem he
    exact ⟨⟨desc'⟩, (erroDetailOf_eq_some_iff txtInfo ⟨desc'⟩).2 ⟨erros, pre, e', post, hget, hsplit, hpre, he'⟩⟩

/-- The loop never hands back Events together with an error. -/
theorem fetchResultsLoop_error_nil (unmarshal : Unmarshal) (rows : List (Option Row))
    (acc events : Slice Event) (err : GoError)
    (h : fetchResultsLoop unmarshal rows acc = .ret (events, some err)) : events = none := by
  induction rows generalizing acc with
  | nil => simp [fetchResultsLoop] at h
  | cons row rest ih =>
    cases hrow : fetchResultsRow unmarshal row with
    | panic p => simp [fetchResultsLoop, hrow] at h
    | fail e =>
      simp only [fetchResultsLoop, hrow, Outcome.ret.injEq, Prod.mk.injEq] at h
      exact h.1.symm
    | event ev =>
      simp only [fetchResultsLoop, hrow] at h
      exact ih _ h

/-- Whatever the client returns, `fetchResults` never returns Events together
with an error: with a non-nil error the result is nil. -/
theorem fetchResults_error_nil {σ : Type} (unmarshal : Unmarshal) (svc : AthenaClient σ)
    (queryExecutionID : Option String) (s : σ) (events : Slice Event) (err : GoError)
    (h : (fetchResults unmarshal svc queryExecutionID s).outcome = .ret (events, some err)) :
    events = none := by
  simp only [fetchResults] at h
  split at h
  · simp only [Outcome.ret.injEq, Prod.mk.injEq] at h
    exact h.1.symm
  · split at h
    · cases h
    · exact fetchResultsLoop_error_nil unmarshal _ _ _ _ h

/-- The payloads of the specification, as texts decoded by `jsonUnmarshal`:
one described entry gives its description; an empty array, an entry without
"descricao" and a missing "erros" key give no detail and no error. -/
theorem fetchResultsRow_payload_examples (c0 c1 c2 : String) :
    fetchResultsRow jsonUnmarshal
        (mkRow [c0, c1, c2, "\x7b\"erros\":[\x7b\"descricao\":\"x\"\x7d]\x7d"]) =
      .event { Name := c0, Data := c1, Status := c2, ErroDetail := some { Descricao := "x" } } ∧
    fetchResultsRow jsonUnmarshal (mkRow [c0, c1, c2, "\x7b\"erros\":[]\x7d"]) =
      .event { Name := c0, Data := c1, Status := c2, ErroDetail := none } ∧
    fetchResultsRow jsonUnmarshal
        (mkRow [c0, c1, c2, "\x7b\"erros\":[\x7b\"foo\":\"bar\"\x7d]\x7d"]) =
      .event { Name := c0, Data := c1, Status := c2, ErroDetail := none } ∧
    fetchResultsRow jsonUnmarshal (mkRow [c0, c1, c2, "\x7b\"other\":1\x7d"]) =
      .event { Name := c0, Data := c1, Status := c2, ErroDetail := none } ∧
    (∃ err, fetchResultsRow jsonUnmarshal (mkRow [c0, c1, c2, "not-json"]) = .fail err) :=
  ⟨rfl, rfl, rfl, rfl, ⟨_, rfl⟩⟩

/-! ## Claims about fetchResults -/

/-- C1: when `GetQueryResults` returns without error a result set made of a
header row and n data rows, each with four non-null string columns (further
columns are ignored) whose fourth decodes, `fetchResults` returns no error and
exactly n Events in row order; the i-th Event has Name, Data and Status equal
to columns 0, 1 and 2 of the i-th data row and the detail read from its
decoded fourth column.  The header contributes no Event. -/
theorem fetchResults_returns_events {σ : Type} (unmarshal : Unmarshal) (svc : AthenaClient σ)
    (queryExecutionID : Option String) (s : σ) (header : Option Row) (rows : List (Option Row))
    (hreply : (svc.GetQueryResults s { QueryExecutionId := queryExecutionID }).2 =
      { out := some { ResultSet := some { Rows := header :: rows } }, err := none })
    (hrows : ∀ row ∈ rows, ∃ c0 c1 c2 c3 txtInfo,
      HasColumns row c0 c1 c2 c3 ∧ unmarshal c3 = .ok txtInfo) :
    ∃ events : Slice Event,
      (fetchResults unmarshal svc queryExecutionID s).outcome = .ret (events, none) ∧
      (Slice.toList events).length = rows.length ∧
      List.Forall₂ (RowEvent unmarshal) rows (Slice.toList events) := by
  have hok : ∀ row ∈ rows, ∃ ev, fetchResultsRow unmarshal row = .event ev := by
    intro row hrow
    obtain ⟨c0, c1, c2, c3, m, hc, hm⟩ := hrows row hrow
    exact ⟨_, by rw [fetchResultsRow_of_hasColumns unmarshal hc, hm]⟩
  obtain ⟨evs, hevs⟩ := exists_forall₂_of_forall_mem rows hok
  have hloop := fetchResultsLoop_append unmarshal hevs [] none
  rw [List.append_nil] at hloop
  have hlist : Slice.toList (evs.foldl Slice.append none) = evs := by
    rw [toList_foldl_append]
    rfl
  refine ⟨evs.foldl Slice.append none, ?_, ?_, ?_⟩
  · rw [fetchResults_of_rows unmarshal svc queryExecutionID s header rows hreply, hloop]
    rfl
  · rw [hlist]
    exact hevs.length_eq.symm
  · rw [hlist]
    exact hevs.imp fun row ev h => (fetchResultsRow_ok_iff unmarshal row ev).1 h

/-- Witness of C1: a header and two data rows, decoded by `jsonUnmarshal`. -/
theorem fetchResults_returns_events_witness :
    (∀ row ∈ [testRow, plainRow], ∃ c0 c1 c2 c3 txtInfo,
      HasColumns row c0 c1 c2 c3 ∧ jsonUnmarshal c3 = .ok txtInfo) ∧
    ∃ events : Slice Event,
      (fetchResults jsonUnmarshal
        (mockSvc (startReply "mock-query-id") (fun _ => statusReply QueryExecutionStateSucceeded)
          (resultsReply [headerRow, testRow, plainRow]))
        (some "mock-query-id") 0).outcome = .ret (events, none) ∧
      (Slice.toList events).length = [testRow, plainRow].length ∧
      List.Forall₂ (RowEvent jsonUnmarshal) [testRow, plainRow] (Slice.toList events) := by
  have hrows : ∀ row ∈ [testRow, plainRow], ∃ c0 c1 c2 c3 txtInfo,
      HasColumns row c0 c1 c2 c3 ∧ jsonUnmarshal c3 = .ok txtInfo := by
    intro row hrow
    simp only [List.mem_cons, List.mem_singleton, List.not_mem_nil, or_false] at hrow
    rcases hrow with rfl | rfl
    · exact ⟨_, _, _, _, _, ⟨[], rfl⟩, rfl⟩
    · exact ⟨_, _, _, _, _, ⟨[], rfl⟩, rfl⟩
  exact ⟨hrows, fetchResults_returns_events jsonUnmarshal _ (some "mock-query-id") 0 headerRow
    [testRow, plainRow] rfl hrows⟩

/-- C2: for a data row whose error-payload column decodes to a JSON object,
the row yields an Event and no error; its ErroDetail is set if and only if
the object's "erros" key holds an array with at least one element that is an
object with a string-valued "descricao"; when set, Descricao is that string
of the first such element in array order.  The object with one described
entry gives that description; an empty array, an entry without "descricao"
and a missing "erros" key leave the detail absent. -/
theorem erroDetail_first_descricao (unmarshal : Unmarshal) (row : Option Row)
    (c0 c1 c2 c3 : String) (txtInfo : JSONMap)
    (hrow : HasColumns row c0 c1 c2 c3) (hjson : unmarshal c3 = .ok txtInfo) :
    ∃ ev : Event, fetchResultsRow unmarshal row = .event ev ∧
      (ev.ErroDetail.isSome = true ↔
        ∃ erros, JSONMap.get txtInfo "erros" = some (.array erros) ∧
          ∃ e ∈ erros, ∃ desc, HasDescricao e desc) ∧
      (∀ d : ErroDetail, ev.ErroDetail = some d ↔
        ∃ erros pre e post, JSONMap.get txtInfo "erros" = some (.array erros) ∧
          erros = pre ++ e :: post ∧ (∀ x ∈ pre, ∀ desc, ¬ HasDescricao x desc) ∧
          HasDescricao e d.Descricao) ∧
      (txtInfo = [("erros", .array [.object [("descricao", .string "x")]])] →
        ev.ErroDetail = some { Descricao := "x" }) ∧
      (txtInfo = [("erros", .array [])] → ev.ErroDetail = none) ∧
      (txtInfo = [("erros", .array [.object [("foo", .string "bar")]])] →
        ev.ErroDetail = none) ∧
      (JSONMap.get txtInfo "erros" = none → ev.ErroDetail = none) := by
  refine ⟨{ Name := c0, Data := c1, Status := c2, ErroDetail := erroDetailOf txtInfo }, ?_,
    erroDetailOf_isSome_iff txtInfo, erroDetailOf_eq_some_iff txtInfo, ?_, ?_, ?_, ?_⟩
  · rw [fetchResultsRow_of_hasColumns unmarshal hrow, hjson]
  · rintro rfl
    rfl
  · rintro rfl
    rfl
  · rintro rfl
    rfl
  · intro h
    simp [erroDetailOf, h]

/-- Witness of C2: of an entry without description and two with one, the first described entry wins. -/
theorem erroDetail_first_descricao_witness :
    HasColumns manyErrosRow "event5" "2024-08-27T00:00:00Z" "status5"
      "\x7b\"erros\":[\x7b\"foo\":\"bar\"\x7d,\x7b\"descricao\":\"x\"\x7d,\x7b\"descricao\":\"y\"\x7d]\x7d" ∧
    jsonUnmarshal
      "\x7b\"erros\":[\x7b\"foo\":\"bar\"\x7d,\x7b\"descricao\":\"x\"\x7d,\x7b\"descricao\":\"y\"\x7d]\x7d" =
      .ok [("erros", .array [.object [("foo", .string "bar")],
        .object [("descricao", .string "x")], .object [("descricao", .string "y")]])] ∧
    ∃ ev : Event, fetchResultsRow jsonUnmarshal manyErrosRow = .event ev ∧
      ev.ErroDetail = some { Descricao := "x" } := by
  refine ⟨⟨[], rfl⟩, rfl, ?_⟩
  obtain ⟨ev, hev, -, hiff, -⟩ := erroDetail_first_descricao jsonUnmarshal manyErrosRow
    "event5" "2024-08-27T00:00:00Z" "status5" _ _ ⟨[], rfl⟩ (Eq.refl (jsonUnmarshal
      "\x7b\"erros\":[\x7b\"foo\":\"bar\"\x7d,\x7b\"descricao\":\"x\"\x7d,\x7b\"descricao\":\"y\"\x7d]\x7d"))
  refine ⟨ev, hev, (hiff ⟨"x"⟩).2 ⟨_, [.object [("foo", .string "bar")]], _, _, rfl, rfl, ?_, ⟨_, rfl, rfl⟩⟩⟩
  intro x hx desc hdesc
  simp only [List.mem_singleton] at hx
  subst hx
  obtain ⟨fields, hf, hget⟩ := hdesc
  cases hf
  simp [JSONMap.get] at hget

/-- C3 as stated fails: a data row whose payload is not JSON does not make
`fetchResults` return an error when a row before it lacks a column or holds a
NULL among its first four: the row access on that earlier row panics first, so
nothing is returned at all. -/
theorem fetchResults_panics_before_malformed_payload :
    HasColumns notJsonRow "event3" "2024-08-26T00:00:00Z" "status3" "not-json" ∧
    (∃ e, jsonUnmarshal "not-json" = .error e) ∧
    (fetchResults jsonUnmarshal
        (mockSvc (startReply "mock-query-id") (fun _ => statusReply QueryExecutionStateSucceeded)
          (resultsReply [headerRow, shortRow, notJsonRow, plainRow]))
        (some "mock-query-id") 0).outcome = .panic .indexOutOfRange ∧
    (fetchResults jsonUnmarshal
        (mockSvc (startReply "mock-query-id") (fun _ => statusReply QueryExecutionStateSucceeded)
          (resultsReply [headerRow, nullNameRow, notJsonRow, plainRow]))
        (some "mock-query-id") 0).outcome = .panic .nilDereference ∧
    ¬ ∃ events err, (fetchResults jsonUnmarshal
        (mockSvc (startReply "mock-query-id") (fun _ => statusReply QueryExecutionStateSucceeded)
          (resultsReply [headerRow, shortRow, notJsonRow, plainRow]))
        (some "mock-query-id") 0).outcome = .ret (events, err) := by
  have hshort : (fetchResults jsonUnmarshal
      (mockSvc (startReply "mock-query-id") (fun _ => statusReply QueryExecutionStateSucceeded)
        (resultsReply [headerRow, shortRow, notJsonRow, plainRow]))
      (some "mock-query-id") 0).outcome = .panic .indexOutOfRange := rfl
  refine ⟨⟨[], rfl⟩, ⟨_, rfl⟩, hshort, rfl, ?_⟩
  rintro ⟨events, err, h⟩
  rw [hshort] at h
  cases h

/-- C3, amended: if the error-payload column of a data row is not valid JSON
(the decoder rejects it) and every data row before it has at least four
columns whose first four values are non-null, `fetchResults` returns an error
and a nil result: no Events are returned alongside the error, however many of
the rows before it decode and whatever the rows after it are.  When the rows
before it all decode, the error is the decoder's error for this row. -/
theorem fetchResults_malformed_payload {σ : Type} (unmarshal : Unmarshal)
    (svc : AthenaClient σ) (queryExecutionID : Option String) (s : σ) (header : Option Row)
    (pre : List (Option Row)) (bad : Option Row) (post : List (Option Row))
    (c0 c1 c2 c3 : String) (e : GoError)
    (hreply : (svc.GetQueryResults s { QueryExecutionId := queryExecutionID }).2 =
      { out := some { ResultSet := some { Rows := header :: (pre ++ bad :: post) } }, err := none })
    (hpre : ∀ row ∈ pre, hasFourColumns row = true)
    (hbad : HasColumns bad c0 c1 c2 c3) (herr : unmarshal c3 = .error e) :
    ∃ e' : GoError,
      (fetchResults unmarshal svc queryExecutionID s).outcome = .ret (none, some e') ∧
      ((∀ row ∈ pre, decodes unmarshal row = true) → e' = e) := by
  have hrow : fetchResultsRow unmarshal bad = .fail e := by
    rw [fetchResultsRow_of_hasColumns unmarshal hbad, herr]
  obtain ⟨e', he', himp⟩ := fetchResultsLoop_decode_error unmarshal pre bad post none e hpre hrow
  refine ⟨e', ?_, himp⟩
  rw [fetchResults_of_rows unmarshal svc queryExecutionID s header _ hreply]
  exact he'

/-- Witness of C3: a row with the payload not-json between rows that decode and a short row. -/
theorem fetchResults_malformed_payload_witness :
    (∀ row ∈ [testRow], hasFourColumns row = true) ∧
    HasColumns notJsonRow "event3" "2024-08-26T00:00:00Z" "status3" "not-json" ∧
    ∃ e : GoError, jsonUnmarshal "not-json" = .error e ∧
      ∃ e' : GoError,
        (fetchResults jsonUnmarshal
          (mockSvc (startReply "mock-query-id")
            (fun _ => statusReply QueryExecutionStateSucceeded)
            (resultsReply [headerRow, testRow, notJsonRow, plainRow, shortRow]))
          (some "mock-query-id") 0).outcome = .ret (none, some e') ∧
        ((∀ row ∈ [testRow], decodes jsonUnmarshal row = true) → e' = e) := by
  have hpre : ∀ row ∈ [testRow], hasFourColumns row = true := by
    intro row hrow
    simp only [List.mem_singleton] at hrow
    subst hrow
    rfl
  obtain ⟨e, herr⟩ : ∃ e, jsonUnmarshal "not-json" = .error e := ⟨_, rfl⟩
  exact ⟨hpre, ⟨[], rfl⟩, e, herr,
    fetchResults_malformed_payload jsonUnmarshal _ (some "mock-query-id") 0 headerRow [testRow]
      notJsonRow [plainRow, shortRow] "event3" "2024-08-26T00:00:00Z" "status3" "not-json"
      e rfl hpre ⟨[], rfl⟩ herr⟩

/-- C10 as stated fails: with a header, a row whose payload is not JSON and
then a one-column row, the stated precondition is violated, yet `fetchResults`
returns the decode error without any panic, because the loop never reaches
the short row. -/
theorem fetchResults_precondition_not_exact :
    ¬ ((∀ p, (fetchResults jsonUnmarshal
          (mockSvc (startReply "mock-query-id") (fun _ => statusReply QueryExecutionStateSucceeded)
            (resultsReply [headerRow, notJsonRow, shortRow]))
          (some "mock-query-id") 0).outcome ≠ .panic p) ↔
        ([headerRow, notJsonRow, shortRow] ≠ [] ∧
          ∀ row ∈ [headerRow, notJsonRow, shortRow].tail, hasFourColumns row = true)) := by
  intro h
  obtain ⟨e, hout⟩ : ∃ e, (fetchResults jsonUnmarshal
      (mockSvc (startReply "mock-query-id") (fun _ => statusReply QueryExecutionStateSucceeded)
        (resultsReply [headerRow, notJsonRow, shortRow]))
      (some "mock-query-id") 0).outcome = .ret (none, some e) := ⟨_, rfl⟩
  have hfree := h.1 (by rw [hout]; intro p hp; cases hp)
  have hshort := hfree.2 shortRow (by simp)
  have : hasFourColumns shortRow = false := rfl
  rw [this] at hshort
  cases hshort

/-- C10, amended: for a result set fetched without error, `fetchResults` is
free of out-of-range indexing and nil dereference exactly when the result set
has at least one row (the header) and every data row that the loop reaches
(a row all of whose predecessors among the data rows have their four columns
and decode) has at least four columns whose first four values are non-null.
The stated precondition (every row after the first has them) is sufficient.
A result set with zero rows makes `Rows[1:]` out of range, and the header's
own contents never matter: the outcome is that of the loop over the rows after
it. -/
theorem fetchResults_panic_free_iff {σ : Type} (unmarshal : Unmarshal) (svc : AthenaClient σ)
    (queryExecutionID : Option String) (s : σ) (rows : List (Option Row))
    (hreply : (svc.GetQueryResults s { QueryExecutionId := queryExecutionID }).2 =
      { out := some { ResultSet := some { Rows := rows } }, err := none }) :
    ((∀ p, (fetchResults unmarshal svc queryExecutionID s).outcome ≠ .panic p) ↔
      (rows ≠ [] ∧ ∀ pre row post, rows.tail = pre ++ row :: post →
        (∀ x ∈ pre, hasFourColumns x = true ∧ decodes unmarshal x = true) →
        hasFourColumns row = true)) ∧
    ((rows ≠ [] ∧ ∀ row ∈ rows.tail, hasFourColumns row = true) →
      ∀ p, (fetchResults unmarshal svc queryExecutionID s).outcome ≠ .panic p) ∧
    (rows = [] →
      (fetchResults unmarshal svc queryExecutionID s).outcome = .panic .sliceBoundsOutOfRange) ∧
    (∀ header data, rows = header :: data →
      (fetchResults unmarshal svc queryExecutionID s).outcome =
        fetchResultsLoop unmarshal data none) := by
  have hmain : (∀ p, (fetchResults unmarshal svc queryExecutionID s).outcome ≠ .panic p) ↔
      (rows ≠ [] ∧ ∀ pre row post, rows.tail = pre ++ row :: post →
        (∀ x ∈ pre, hasFourColumns x = true ∧ decodes unmarshal x = true) →
        hasFourColumns row = true) := by
    cases rows with
    | nil =>
      have hout : (fetchResults unmarshal svc queryExecutionID s).outcome =
          .panic .sliceBoundsOutOfRange := by
        simp only [fetchResults, hreply, dataRows]
      constructor
      · intro h
        exact absurd hout (h _)
      · rintro ⟨h, -⟩
        exact absurd rfl h
    | cons header data =>
      rw [fetchResults_of_rows unmarshal svc queryExecutionID s header data hreply]
      have hiff := fetchResultsLoop_panic_iff unmarshal data none
      constructor
      · intro hfree
        refine ⟨by simp, ?_⟩
        intro pre row post hsplit hpre
        by_contra hrow
        have hfalse : hasFourColumns row = false := by simpa using hrow
        obtain ⟨p, hp⟩ := hiff.2 ⟨pre, row, post, hsplit, hpre, hfalse⟩
        exact hfree p hp
      · rintro ⟨-, hall⟩ p hp
        obtain ⟨pre, bad, post, hsplit, hpre, hbad⟩ := hiff.1 ⟨p, hp⟩
        have := hall pre bad post hsplit hpre
        rw [hbad] at this
        cases this
  refine ⟨hmain, ?_, ?_, ?_⟩
  · rintro ⟨hne, hall⟩
    refine hmain.2 ⟨hne, ?_⟩
    intro pre row post hsplit _
    exact hall row (by rw [hsplit]; simp)
  · rintro rfl
    simp only [fetchResults, hreply, dataRows]
  · rintro header data rfl
    rw [fetchResults_of_rows unmarshal svc queryExecutionID s header data hreply]

/-- Witness of C10: the loop stops at the row that fails to decode, so the short row after it raises no panic. -/
theorem fetchResults_panic_free_iff_witness :
    ((mockSvc (startReply "mock-query-id") (fun _ => statusReply QueryExecutionStateSucceeded)
        (resultsReply [shortRow, testRow, notJsonRow, shortRow])).GetQueryResults 0
        { QueryExecutionId := some "mock-query-id" }).2 =
      { out := some { ResultSet := some { Rows := [shortRow, testRow, notJsonRow, shortRow] } },
        err := none } ∧
    (∀ p, (fetchResults jsonUnmarshal
        (mockSvc (startReply "mock-query-id") (fun _ => statusReply QueryExecutionStateSucceeded)
          (resultsReply [shortRow, testRow, notJsonRow, shortRow]))
        (some "mock-query-id") 0).outcome ≠ .panic p) := by
  refine ⟨rfl, ?_⟩
  refine (fetchResults_panic_free_iff jsonUnmarshal _ (some "mock-query-id") 0
    [shortRow, testRow, notJsonRow, shortRow] rfl).1.2 ⟨by simp, ?_⟩
  intro pre row post hsplit hpre
  match pre, hsplit, hpre with
  | [], hsplit, _ =>
    simp only [List.tail_cons, List.nil_append, List.cons.injEq] at hsplit
    rw [← hsplit.1]
    rfl
  | [_], hsplit, _ =>
    simp only [List.tail_cons, List.cons_append, List.nil_append, List.cons.injEq] at hsplit
    rw [← hsplit.2.1]
    rfl
  | a :: b :: more, hsplit, hpre =>
    simp only [List.tail_cons, List.cons_append, List.cons.injEq] at hsplit
    have hb := (hpre b (by simp)).2
    rw [← hsplit.2.1] at hb
    have : decodes jsonUnmarshal notJsonRow = false := rfl
    rw [this] at hb
    cases hb

/-! ## One round of the polling loop -/

theorem pollLoop_done {σ : Type} (unmarshal : Unmarshal) (svc : AthenaClient σ)
    (queryExecutionID : Option String) (elapsed : Nat) (s : σ) (h : ¬ elapsed < maxWaitTime) :
    pollLoop unmarshal svc queryExecutionID elapsed s =
      { state := s, trace := []
        outcome := .ret (none, some { msg := "query nao concluida dentro dos 25s" }) } := by
  rw [pollLoop, if_neg h]

theorem pollLoop_error {σ : Type} (unmarshal : Unmarshal) (svc : AthenaClient σ)
    (queryExecutionID : Option String) (elapsed : Nat) (s : σ) (e : GoError)
    (h : elapsed < maxWaitTime)
    (herr : (svc.GetQueryExecution s { QueryExecutionId := queryExecutionID }).2.err = some e) :
    pollLoop unmarshal svc queryExecutionID elapsed s =
      { state := (svc.GetQueryExecution s { QueryExecutionId := queryExecutionID }).1
        trace := [Effect.GetQueryExecution { QueryExecutionId := queryExecutionID } (some e)]
        outcome := .ret (none, some e) } := by
  rw [pollLoop, if_pos h]
  simp only [herr]

theorem pollLoop_nil_status {σ : Type} (unmarshal : Unmarshal) (svc : AthenaClient σ)
    (queryExecutionID : Option String) (elapsed : Nat) (s : σ)
    (h : elapsed < maxWaitTime)
    (herr : (svc.GetQueryExecution s { QueryExecutionId := queryExecutionID }).2.err = none)
    (hst : statusOf (svc.GetQueryExecution s { QueryExecutionId := queryExecutionID }).2.out = none) :
    pollLoop unmarshal svc queryExecutionID elapsed s =
      { state := (svc.GetQueryExecution s { QueryExecutionId := queryExecutionID }).1
        trace := [Effect.GetQueryExecution { QueryExecutionId := queryExecutionID } none]
        outcome := .panic .nilDereference } := by
  rw [pollLoop, if_pos h]
  simp only [herr, hst]

theorem pollLoop_succeeded {σ : Type} (unmarshal : Unmarshal) (svc : AthenaClient σ)
    (queryExecutionID : Option String) (elapsed : Nat) (s : σ)
    (h : elapsed < maxWaitTime)
    (hrep : Reports (svc.GetQueryExecution s { QueryExecutionId := queryExecutionID }).2
      QueryExecutionStateSucceeded) :
    pollLoop unmarshal svc queryExecutionID elapsed s =
      Run.after [Effect.GetQueryExecution { QueryExecutionId := queryExecutionID } none]
        (fetchResults unmarshal svc queryExecutionID
          (svc.GetQueryExecution s { QueryExecutionId := queryExecutionID }).1) := by
  rw [pollLoop, if_pos h]
  simp only [hrep.1, hrep.2, if_true]

theorem pollLoop_failed {σ : Type} (unmarshal : Unmarshal) (svc : AthenaClient σ)
    (queryExecutionID : Option String) (elapsed : Nat) (s : σ) (st : String)
    (h : elapsed < maxWaitTime)
    (hrep : Reports (svc.GetQueryExecution s { QueryExecutionId := queryExecutionID }).2 st)
    (hst : st = QueryExecutionStateFailed ∨ st = QueryExecutionStateCancelled) :
    pollLoop unmarshal svc queryExecutionID elapsed s =
      { state := (svc.GetQueryExecution s { QueryExecutionId := queryExecutionID }).1
        trace := [Effect.GetQueryExecution { QueryExecutionId := queryExecutionID } none,
          Effect.Fatalln ["Query com status de falha/cancelada: ", st]]
        outcome := .exit 1 } := by
  have hne : st ≠ QueryExecutionStateSucceeded := by
    rcases hst with rfl | rfl <;> decide
  rw [pollLoop, if_pos h]
  simp only [hrep.1, hrep.2, if_neg hne, if_pos hst]

theorem pollLoop_pending {σ : Type} (unmarshal : Unmarshal) (svc : AthenaClient σ)
    (queryExecutionID : Option String) (elapsed : Nat) (s : σ) (st : String)
    (h : elapsed < maxWaitTime)
    (hrep : Reports (svc.GetQueryExecution s { QueryExecutionId := queryExecutionID }).2 st)
    (h1 : st ≠ QueryExecutionStateSucceeded) (h2 : st ≠ QueryExecutionStateFailed)
    (h3 : st ≠ QueryExecutionStateCancelled) :
    pollLoop unmarshal svc queryExecutionID elapsed s =
      Run.after [Effect.GetQueryExecution { QueryExecutionId := queryExecutionID } none,
          Effect.Sleep waitInterval]
        (pollLoop unmarshal svc queryExecutionID (elapsed + waitInterval)
          (svc.GetQueryExecution s { QueryExecutionId := queryExecutionID }).1) := by
  have hnot : ¬ (st = QueryExecutionStateFailed ∨ st = QueryExecutionStateCancelled) := by
    rintro (h | h)
    · exact h2 h
    · exact h3 h
  rw [pollLoop, if_pos h]
  simp only [hrep.1, hrep.2, if_neg h1, if_neg hnot]

/-! ## Counting effects -/

theorem statusChecks_append (a b : List Effect) :
    statusChecks (a ++ b) = statusChecks a + statusChecks b := by
  induction a with
  | nil => simp [statusChecks]
  | cons x a ih => cases x <;> simp [statusChecks, ih, Nat.add_right_comm]

theorem fetches_append (a b : List Effect) : fetches (a ++ b) = fetches a + fetches b := by
  induction a with
  | nil => simp [fetches]
  | cons x a ih => cases x <;> simp [fetches, ih, Nat.add_right_comm]

theorem submissions_append (a b : List Effect) :
    submissions (a ++ b) = submissions a + submissions b := by
  induction a with
  | nil => simp [submissions]
  | cons x a ih => cases x <;> simp [submissions, ih, Nat.add_right_comm]

theorem statusChecks_pollTrace (queryExecutionID : Option String) (n : Nat) :
    statusChecks (pollTrace queryExecutionID n) = n := by
  induction n with
  | zero => rfl
  | succ n ih => simp [pollTrace, statusChecks, ih]

theorem fetches_pollTrace (queryExecutionID : Option String) (n : Nat) :
    fetches (pollTrace queryExecutionID n) = 0 := by
  induction n with
  | zero => rfl
  | succ n ih => simp [pollTrace, fetches, ih]

theorem pollTrace_succ_append (queryExecutionID : Option String) (n : Nat) (tr : List Effect) :
    Effect.GetQueryExecution { QueryExecutionId := queryExecutionID } none ::
      Effect.Sleep waitInterval :: (pollTrace queryExecutionID n ++ tr) =
      pollTrace queryExecutionID (n + 1) ++ tr := rfl

/-! ## Several rounds of the polling loop -/

theorem after_after {σ α : Type} (a b : List Effect) (r : Run σ α) :
    Run.after a (Run.after b r) = Run.after (a ++ b) r := by
  simp [Run.after]

/-- After `k` rounds that each find a status other than the three terminal
ones, the loop stands at the round `elapsed + k`. -/
theorem pollLoop_rounds {σ : Type} (unmarshal : Unmarshal) (svc : AthenaClient σ)
    (queryExecutionID : Option String) :
    ∀ (k elapsed : Nat) (s : σ), elapsed + k ≤ maxWaitTime →
      (∀ i < k, ∃ st, Reports (pollReply svc queryExecutionID i s) st ∧
        st ≠ QueryExecutionStateSucceeded ∧ st ≠ QueryExecutionStateFailed ∧
        st ≠ QueryExecutionStateCancelled) →
      pollLoop unmarshal svc queryExecutionID elapsed s =
        Run.after (pollTrace queryExecutionID k)
          (pollLoop unmarshal svc queryExecutionID (elapsed + k)
            (pollState svc queryExecutionID k s))
  | 0, elapsed, s, _, _ => by
    simp [Run.after, pollTrace, pollState]
  | k + 1, elapsed, s, hle, hpending => by
    obtain ⟨st, hrep, h1, h2, h3⟩ := hpending 0 (Nat.succ_pos k)
    have hlt : elapsed < maxWaitTime := by omega
    have hnext : ∀ i < k, ∃ st,
        Reports (pollReply svc queryExecutionID i
          (svc.GetQueryExecution s { QueryExecutionId := queryExecutionID }).1) st ∧
        st ≠ QueryExecutionStateSucceeded ∧ st ≠ QueryExecutionStateFailed ∧
        st ≠ QueryExecutionStateCancelled := fun i hi => hpending (i + 1) (Nat.succ_lt_succ hi)
    rw [pollLoop_pending unmarshal svc queryExecutionID elapsed s st hlt hrep h1 h2 h3,
      pollLoop_rounds unmarshal svc queryExecutionID k (elapsed + waitInterval) _
        (by simp only [waitInterval]; omega) hnext,
      after_after]
    have harith : elapsed + waitInterval + k = elapsed + (k + 1) := by
      simp only [waitInterval]; omega
    rw [harith]
    rfl

theorem pending_of_queued_or_running {reply : Reply GetQueryExecutionOutput}
    (h : ∃ st, Reports reply st ∧
      (st = QueryExecutionStateQueued ∨ st = QueryExecutionStateRunning)) :
    ∃ st, Reports reply st ∧ st ≠ QueryExecutionStateSucceeded ∧
      st ≠ QueryExecutionStateFailed ∧ st ≠ QueryExecutionStateCancelled := by
  obtain ⟨st, hrep, hst⟩ := h
  refine ⟨st, hrep, ?_⟩
  rcases hst with rfl | rfl <;> decide

/-! ## Claims about getQueryResults -/

/-- C4: for every k < 25, if the first k status checks report Queued or
Running without error and check k + 1 reports Succeeded, `getQueryResults`
performs exactly k + 1 status checks, none after the Succeeded one, calls
`GetQueryResults` exactly once (as its last effect), and ends exactly as
`fetchResults` does from the client state the checks leave. -/
theorem getQueryResults_succeeds_after {σ : Type} (unmarshal : Unmarshal)
    (svc : AthenaClient σ) (queryExecutionID : Option String) (s : σ) (k : Nat) (hk : k < 25)
    (hpending : ∀ i < k, ∃ st, Reports (pollReply svc queryExecutionID i s) st ∧
      (st = QueryExecutionStateQueued ∨ st = QueryExecutionStateRunning))
    (hsucc : Reports (pollReply svc queryExecutionID k s) QueryExecutionStateSucceeded) :
    (getQueryResults unmarshal svc queryExecutionID s).trace =
        pollTrace queryExecutionID k ++
          [Effect.GetQueryExecution { QueryExecutionId := queryExecutionID } none,
           Effect.GetQueryResults { QueryExecutionId := queryExecutionID }
            (svc.GetQueryResults (pollState svc queryExecutionID (k + 1) s)
              { QueryExecutionId := queryExecutionID }).2.err] ∧
      statusChecks (getQueryResults unmarshal svc queryExecutionID s).trace = k + 1 ∧
      fetches (getQueryResults unmarshal svc queryExecutionID s).trace = 1 ∧
      (getQueryResults unmarshal svc queryExecutionID s).outcome =
        (fetchResults unmarshal svc queryExecutionID
          (pollState svc queryExecutionID (k + 1) s)).outcome ∧
      (getQueryResults unmarshal svc queryExecutionID s).state =
        (fetchResults unmarshal svc queryExecutionID
          (pollState svc queryExecutionID (k + 1) s)).state := by
  have hrounds := pollLoop_rounds unmarshal svc queryExecutionID k 0 s
    (by simp only [maxWaitTime]; omega)
    (fun i hi => pending_of_queued_or_running (hpending i hi))
  have hstate : (svc.GetQueryExecution (pollState svc queryExecutionID k s)
      { QueryExecutionId := queryExecutionID }).1 = pollState svc queryExecutionID (k + 1) s := by
    clear hrounds hpending hsucc
    induction k generalizing s with
    | zero => rfl
    | succ k ih => exact ih _ (by omega)
  have hrun : getQueryResults unmarshal svc queryExecutionID s =
      Run.after (pollTrace queryExecutionID k ++
          [Effect.GetQueryExecution { QueryExecutionId := queryExecutionID } none])
        (fetchResults unmarshal svc queryExecutionID
          (pollState svc queryExecutionID (k + 1) s)) := by
    rw [getQueryResults, hrounds,
      pollLoop_succeeded unmarshal svc queryExecutionID (0 + k) _
        (by simp only [maxWaitTime]; omega) hsucc,
      after_after, hstate]
  have htrace : (getQueryResults unmarshal svc queryExecutionID s).trace =
      pollTrace queryExecutionID k ++
        [Effect.GetQueryExecution { QueryExecutionId := queryExecutionID } none,
         Effect.GetQueryResults { QueryExecutionId := queryExecutionID }
          (svc.GetQueryResults (pollState svc queryExecutionID (k + 1) s)
            { QueryExecutionId := queryExecutionID }).2.err] := by
    rw [hrun]
    simp [Run.after, fetchResults_trace]
  refine ⟨htrace, ?_, ?_, ?_, ?_⟩
  · rw [htrace, statusChecks_append, statusChecks_pollTrace]
    rfl
  · rw [htrace, fetches_append, fetches_pollTrace]
    rfl
  · rw [hrun]
    rfl
  · rw [hrun]
    rfl

/-- C5: if every status check of the window succeeds and reports Queued or
Running, `getQueryResults` performs exactly 25 = maxWaitTime / waitInterval
status checks, never calls `GetQueryResults`, and returns a nil result with
the error "query nao concluida dentro dos 25s". -/
theorem getQueryResults_deadline {σ : Type} (unmarshal : Unmarshal) (svc : AthenaClient σ)
    (queryExecutionID : Option String) (s : σ)
    (hpending : ∀ i < 25, ∃ st, Reports (pollReply svc queryExecutionID i s) st ∧
      (st = QueryExecutionStateQueued ∨ st = QueryExecutionStateRunning)) :
    (getQueryResults unmarshal svc queryExecutionID s).outcome =
        .ret (none, some { msg := "query nao concluida dentro dos 25s" }) ∧
      (getQueryResults unmarshal svc queryExecutionID s).trace = pollTrace queryExecutionID 25 ∧
      statusChecks (getQueryResults unmarshal svc queryExecutionID s).trace = 25 ∧
      statusChecks (getQueryResults unmarshal svc queryExecutionID s).trace =
        maxWaitTime / waitInterval ∧
      fetches (getQueryResults unmarshal svc queryExecutionID s).trace = 0 := by
  have hrounds := pollLoop_rounds unmarshal svc queryExecutionID 25 0 s
    (by simp only [maxWaitTime]; omega)
    (fun i hi => pending_of_queued_or_running (hpending i hi))
  have hrun : getQueryResults unmarshal svc queryExecutionID s =
      { state := pollState svc queryExecutionID 25 s, trace := pollTrace queryExecutionID 25
        outcome := .ret (none, some { msg := "query nao concluida dentro dos 25s" }) } := by
    rw [getQueryResults, hrounds,
      pollLoop_done unmarshal svc queryExecutionID (0 + 25) _ (by simp only [maxWaitTime]; omega)]
    simp [Run.after]
  rw [hrun]
  refine ⟨rfl, rfl, statusChecks_pollTrace _ 25, ?_, fetches_pollTrace _ 25⟩
  rw [statusChecks_pollTrace]
  rfl

/-! ## Remote errors end the run -/

theorem quiet_nil : Quiet [] := by
  intro c hc
  cases hc

theorem quiet_append {a b : List Effect} (ha : Quiet a) (hb : Quiet b) : Quiet (a ++ b) := by
  intro c hc
  rcases List.mem_append.1 hc with h | h
  · exact ha c h
  · exact hb c h

theorem stopsAtError_after {σ : Type} {r : Run σ EventsResult} (pre : List Effect)
    (hq : Quiet pre) (hf : fetches pre = 0) (h : StopsAtError r) :
    StopsAtError (Run.after pre r) := by
  rcases h with h | ⟨p, c, e, htr, hqp, hfp, he, hout⟩
  · exact Or.inl (quiet_append hq h)
  · refine Or.inr ⟨pre ++ p, c, e, ?_, quiet_append hq hqp, ?_, he, hout⟩
    · simp [Run.after, htr]
    · rw [fetches_append, hf, hfp]

theorem fetchResults_stopsAtError {σ : Type} (unmarshal : Unmarshal) (svc : AthenaClient σ)
    (queryExecutionID : Option String) (s : σ) :
    StopsAtError (fetchResults unmarshal svc queryExecutionID s) := by
  cases herr : (svc.GetQueryResults s { QueryExecutionId := queryExecutionID }).2.err with
  | none =>
    left
    rw [fetchResults_trace, herr]
    intro c hc
    simp only [List.mem_singleton] at hc
    subst hc
    rfl
  | some e =>
    right
    refine ⟨[], Effect.GetQueryResults { QueryExecutionId := queryExecutionID } (some e), e,
      ?_, quiet_nil, rfl, rfl, fetchResults_error unmarshal svc queryExecutionID s e herr⟩
    rw [fetchResults_trace, herr]
    rfl

theorem pollLoop_stopsAtError {σ : Type} (unmarshal : Unmarshal) (svc : AthenaClient σ)
    (queryExecutionID : Option String) :
    ∀ (n elapsed : Nat) (s : σ), maxWaitTime - elapsed = n →
      StopsAtError (pollLoop unmarshal svc queryExecutionID elapsed s) ∧
        submissions (pollLoop unmarshal svc queryExecutionID elapsed s).trace = 0 := by
  intro n
  induction n with
  | zero =>
    intro elapsed s hn
    have h : ¬ elapsed < maxWaitTime := by omega
    rw [pollLoop_done unmarshal svc queryExecutionID elapsed s h]
    exact ⟨Or.inl quiet_nil, rfl⟩
  | succ n ih =>
    intro elapsed s hn
    have h : elapsed < maxWaitTime := by omega
    have hcall : Quiet [Effect.GetQueryExecution { QueryExecutionId := queryExecutionID } none] := by
      intro c hc
      simp only [List.mem_singleton] at hc
      subst hc
      rfl
    cases herr : (svc.GetQueryExecution s { QueryExecutionId := queryExecutionID }).2.err with
    | some e =>
      rw [pollLoop_error unmarshal svc queryExecutionID elapsed s e h herr]
      exact ⟨Or.inr ⟨[], _, e, rfl, quiet_nil, rfl, rfl, rfl⟩, rfl⟩
    | none =>
      cases hst : statusOf (svc.GetQueryExecution s { QueryExecutionId := queryExecutionID }).2.out with
      | none =>
        rw [pollLoop_nil_status unmarshal svc queryExecutionID elapsed s h herr hst]
        exact ⟨Or.inl hcall, rfl⟩
      | some st =>
        have hrep : Reports (svc.GetQueryExecution s { QueryExecutionId := queryExecutionID }).2 st :=
          ⟨herr, hst⟩
        by_cases h1 : st = QueryExecutionStateSucceeded
        · subst h1
          rw [pollLoop_succeeded unmarshal svc queryExecutionID elapsed s h hrep]
          refine ⟨stopsAtError_after _ hcall rfl (fetchResults_stopsAtError _ _ _ _), ?_⟩
          simp only [Run.after, fetchResults_trace]
          rfl
        · by_cases h2 : st = QueryExecutionStateFailed ∨ st = QueryExecutionStateCancelled
          · rw [pollLoop_failed unmarshal svc queryExecutionID elapsed s st h hrep h2]
            refine ⟨Or.inl ?_, rfl⟩
            intro c hc
            simp only [List.mem_cons, List.mem_singleton, List.not_mem_nil, or_false] at hc
            rcases hc with rfl | rfl <;> rfl
          · have h3 : st ≠ QueryExecutionStateFailed := fun h => h2 (Or.inl h)
            have h4 : st ≠ QueryExecutionStateCancelled := fun h => h2 (Or.inr h)
            rw [pollLoop_pending unmarshal svc queryExecutionID elapsed s st h hrep h1 h3 h4]
            obtain ⟨ihs, ihn⟩ := ih (elapsed + waitInterval)
              (svc.GetQueryExecution s { QueryExecutionId := queryExecutionID }).1
              (by simp only [waitInterval]; omega)
            refine ⟨stopsAtError_after _ ?_ rfl ihs, ?_⟩
            · intro c hc
              simp only [List.mem_cons, List.mem_singleton, List.not_mem_nil, or_false] at hc
              rcases hc with rfl | rfl <;> rfl
            · simp only [Run.after, submissions_append, ihn]
              rfl

theorem getQueryResults_stopsAtError {σ : Type} (unmarshal : Unmarshal) (svc : AthenaClient σ)
    (queryExecutionID : Option String) (s : σ) :
    StopsAtError (getQueryResults unmarshal svc queryExecutionID s) ∧
      submissions (getQueryResults unmarshal svc queryExecutionID s).trace = 0 :=
  pollLoop_stopsAtError unmarshal svc queryExecutionID maxWaitTime 0 s rfl

/-- In a trace that ends with a failed call after a quiet part, the failed
call is the only one. -/
theorem failed_call_is_last {tr quiet pre post : List Effect} {c c' : Effect} {e : GoError}
    (hq : Quiet quiet) (h1 : tr = quiet ++ [c']) (h2 : tr = pre ++ c :: post)
    (he : Effect.remoteErr c = some e) : post = [] ∧ pre = quiet ∧ c = c' := by
  rcases List.eq_nil_or_concat post with hpost | ⟨init, z, hpost⟩
  · subst hpost
    rw [h1] at h2
    have := List.append_inj' h2 rfl
    simp only [List.cons.injEq, and_true] at this
    exact ⟨rfl, this.1.symm, this.2.symm⟩
  · exfalso
    subst hpost
    rw [h1] at h2
    have h3 : quiet ++ [c'] = (pre ++ c :: init) ++ [z] := by
      rw [h2]
      simp
    have := (List.append_inj' h3 rfl).1
    have hmem : c ∈ quiet := by
      rw [this]
      simp
    rw [hq c hmem] at he
    cases he

theorem not_mem_of_submissions_eq_zero {tr : List Effect} (h : submissions tr = 0)
    (input : StartQueryExecutionInput) (err : Option GoError) :
    Effect.StartQueryExecution input err ∉ tr := by
  induction tr with
  | nil => simp
  | cons x tr ih =>
    intro hmem
    cases x with
    | StartQueryExecution i e => simp [submissions] at h
    | GetQueryExecution i e =>
      simp only [submissions] at h
      simp only [List.mem_cons] at hmem
      rcases hmem with hmem | hmem
      · cases hmem
      · exact ih h hmem
    | GetQueryResults i e =>
      simp only [submissions] at h
      simp only [List.mem_cons] at hmem
      rcases hmem with hmem | hmem
      · cases hmem
      · exact ih h hmem
    | Sleep n =>
      simp only [submissions] at h
      simp only [List.mem_cons] at hmem
      rcases hmem with hmem | hmem
      · cases hmem
      · exact ih h hmem
    | Println a =>
      simp only [submissions] at h
      simp only [List.mem_cons] at hmem
      rcases hmem with hmem | hmem
      · cases hmem
      · exact ih h hmem
    | Fatalln a =>
      simp only [submissions] at h
      simp only [List.mem_cons] at hmem
      rcases hmem with hmem | hmem
      · cases hmem
      · exact ih h hmem

/-- The three ways `queryAthena` can go after the submission. -/
theorem queryAthena_cases {σ : Type} (unmarshal : Unmarshal) (svc : AthenaClient σ)
    (queryID : String) (s : σ) :
    let input : StartQueryExecutionInput :=
      { QueryString := some ("SELECT * FROM tb_teste WHERE id='" ++ queryID ++ "'")
        OutputLocation := some "s3://bucket-teste/query-results/" }
    let r := svc.StartQueryExecution s input
    (∃ e, r.2.err = some e ∧
      (queryAthena unmarshal svc queryID s).trace = [Effect.StartQueryExecution input (some e)] ∧
      (queryAthena unmarshal svc queryID s).outcome = .ret (none, some e)) ∨
    (r.2.err = none ∧ r.2.out = none ∧
      (queryAthena unmarshal svc queryID s).trace = [Effect.StartQueryExecution input none] ∧
      (queryAthena unmarshal svc queryID s).outcome = .panic .nilDereference) ∨
    (∃ result, r.2.err = none ∧ r.2.out = some result ∧
      (queryAthena unmarshal svc queryID s).trace =
        Effect.StartQueryExecution input none ::
          (getQueryResults unmarshal svc result.QueryExecutionId r.1).trace ∧
      (queryAthena unmarshal svc queryID s).state =
        (getQueryResults unmarshal svc result.QueryExecutionId r.1).state ∧
      (∀ results, (getQueryResults unmarshal svc result.QueryExecutionId r.1).outcome =
          .ret (results, none) → (queryAthena unmarshal svc queryID s).outcome = .ret (results, none)) ∧
      (∀ results e, (getQueryResults unmarshal svc result.QueryExecutionId r.1).outcome =
          .ret (results, some e) → (queryAthena unmarshal svc queryID s).outcome = .ret (none, some e)) ∧
      (∀ p, (getQueryResults unmarshal svc result.QueryExecutionId r.1).outcome = .panic p →
          (queryAthena unmarshal svc queryID s).outcome = .panic p) ∧
      (∀ c, (getQueryResults unmarshal svc result.QueryExecutionId r.1).outcome = .exit c →
          (queryAthena unmarshal svc queryID s).outcome = .exit c)) := by
  intro input r
  cases herr : r.2.err with
  | some e =>
    left
    refine ⟨e, rfl, ?_, ?_⟩ <;> simp only [queryAthena, r, input] at herr ⊢ <;> simp only [herr]
  | none =>
    right
    cases hout : r.2.out with
    | none =>
      left
      refine ⟨rfl, rfl, ?_, ?_⟩ <;>
        simp only [queryAthena, r, input] at herr hout ⊢ <;> simp only [herr, hout]
    | some result =>
      right
      refine ⟨result, rfl, rfl, ?_, ?_, ?_, ?_, ?_, ?_⟩
      all_goals simp only [queryAthena, r, input] at herr hout ⊢
      all_goals simp only [herr, hout]
      · split <;> rfl
      · split <;> rfl
      · intro results hg
        simp only [hg]
      · intro results e hg
        simp only [hg]
      · intro p hg
        simp only [hg]
      · intro c hg
        simp only [hg]

/-! ## The mock client -/

theorem pollState_mockSvc (start : Reply StartQueryExecutionOutput)
    (status : Nat → Reply GetQueryExecutionOutput) (results : Reply GetQueryResultsOutput)
    (queryExecutionID : Option String) (n s : Nat) :
    pollState (mockSvc start status results) queryExecutionID n s = s + n := by
  induction n generalizing s with
  | zero => rfl
  | succ n ih =>
    simp only [pollState, mockSvc]
    have := ih (s + 1)
    simp only [mockSvc] at this
    rw [this]
    omega

theorem pollReply_mockSvc (start : Reply StartQueryExecutionOutput)
    (status : Nat → Reply GetQueryExecutionOutput) (results : Reply GetQueryResultsOutput)
    (queryExecutionID : Option String) (n s : Nat) :
    pollReply (mockSvc start status results) queryExecutionID n s = status (s + n) := by
  rw [pollReply, pollState_mockSvc]
  rfl

/-! ## Witnesses of the polling claims -/

/-- Witness of C4: Queued, Running, Succeeded is exactly three status checks and one fetch. -/
theorem getQueryResults_succeeds_after_witness :
    (2 < 25) ∧
    (∀ i < 2, ∃ st,
      Reports (pollReply (mockSvc (startReply "mock-query-id")
        (statusScript [QueryExecutionStateQueued, QueryExecutionStateRunning]
          QueryExecutionStateSucceeded)
        (resultsReply [headerRow, testRow])) (some "mock-query-id") i 0) st ∧
      (st = QueryExecutionStateQueued ∨ st = QueryExecutionStateRunning)) ∧
    Reports (pollReply (mockSvc (startReply "mock-query-id")
        (statusScript [QueryExecutionStateQueued, QueryExecutionStateRunning]
          QueryExecutionStateSucceeded)
        (resultsReply [headerRow, testRow])) (some "mock-query-id") 2 0)
      QueryExecutionStateSucceeded ∧
    statusChecks (getQueryResults jsonUnmarshal (mockSvc (startReply "mock-query-id")
        (statusScript [QueryExecutionStateQueued, QueryExecutionStateRunning]
          QueryExecutionStateSucceeded)
        (resultsReply [headerRow, testRow])) (some "mock-query-id") 0).trace = 3 ∧
    fetches (getQueryResults jsonUnmarshal (mockSvc (startReply "mock-query-id")
        (statusScript [QueryExecutionStateQueued, QueryExecutionStateRunning]
          QueryExecutionStateSucceeded)
        (resultsReply [headerRow, testRow])) (some "mock-query-id") 0).trace = 1 := by
  have hpending : ∀ i < 2, ∃ st,
      Reports (pollReply (mockSvc (startReply "mock-query-id")
        (statusScript [QueryExecutionStateQueued, QueryExecutionStateRunning]
          QueryExecutionStateSucceeded)
        (resultsReply [headerRow, testRow])) (some "mock-query-id") i 0) st ∧
      (st = QueryExecutionStateQueued ∨ st = QueryExecutionStateRunning) := by
    intro i hi
    interval_cases i
    · exact ⟨QueryExecutionStateQueued, ⟨rfl, rfl⟩, Or.inl rfl⟩
    · exact ⟨QueryExecutionStateRunning, ⟨rfl, rfl⟩, Or.inr rfl⟩
  have h := getQueryResults_succeeds_after jsonUnmarshal _ (some "mock-query-id") 0 2
    (by decide) hpending ⟨rfl, rfl⟩
  exact ⟨by decide, hpending, ⟨rfl, rfl⟩, h.2.1, h.2.2.1⟩

/-- Witness of C5: a query that stays Queued and then Running for the whole window. -/
theorem getQueryResults_deadline_witness :
    (∀ i < 25, ∃ st,
      Reports (pollReply (mockSvc (startReply "mock-query-id")
        (statusScript [QueryExecutionStateQueued] QueryExecutionStateRunning)
        (resultsReply [headerRow, testRow])) (some "mock-query-id") i 0) st ∧
      (st = QueryExecutionStateQueued ∨ st = QueryExecutionStateRunning)) ∧
    (getQueryResults jsonUnmarshal (mockSvc (startReply "mock-query-id")
        (statusScript [QueryExecutionStateQueued] QueryExecutionStateRunning)
        (resultsReply [headerRow, testRow])) (some "mock-query-id") 0).outcome =
      .ret (none, some { msg := "query nao concluida dentro dos 25s" }) ∧
    statusChecks (getQueryResults jsonUnmarshal (mockSvc (startReply "mock-query-id")
        (statusScript [QueryExecutionStateQueued] QueryExecutionStateRunning)
        (resultsReply [headerRow, testRow])) (some "mock-query-id") 0).trace = 25 := by
  have hpending : ∀ i < 25, ∃ st,
      Reports (pollReply (mockSvc (startReply "mock-query-id")
        (statusScript [QueryExecutionStateQueued] QueryExecutionStateRunning)
        (resultsReply [headerRow, testRow])) (some "mock-query-id") i 0) st ∧
      (st = QueryExecutionStateQueued ∨ st = QueryExecutionStateRunning) := by
    intro i _
    rw [pollReply_mockSvc]
    cases i with
    | zero => exact ⟨QueryExecutionStateQueued, ⟨rfl, rfl⟩, Or.inl rfl⟩
    | succ i => exact ⟨QueryExecutionStateRunning, ⟨rfl, rfl⟩, Or.inr rfl⟩
  have h := getQueryResults_deadline jsonUnmarshal _ (some "mock-query-id") 0 hpending
  exact ⟨hpending, h.1, h.2.2.1⟩

/-- After `k` rounds with a non-terminal status, a check that reports Failed
or Cancelled is the last remote call, and the process exits with status 1. -/
theorem getQueryResults_exits_on_failure {σ : Type} (unmarshal : Unmarshal)
    (svc : AthenaClient σ) (queryExecutionID : Option String) (s : σ) (k : Nat) (st : String)
    (hk : k < maxWaitTime)
    (hpending : ∀ i < k, ∃ st, Reports (pollReply svc queryExecutionID i s) st ∧
      (st = QueryExecutionStateQueued ∨ st = QueryExecutionStateRunning))
    (hrep : Reports (pollReply svc queryExecutionID k s) st)
    (hst : st = QueryExecutionStateFailed ∨ st = QueryExecutionStateCancelled) :
    (getQueryResults unmarshal svc queryExecutionID s).trace =
        pollTrace queryExecutionID k ++
          [Effect.GetQueryExecution { QueryExecutionId := queryExecutionID } none,
           Effect.Fatalln ["Query com status de falha/cancelada: ", st]] ∧
      (getQueryResults unmarshal svc queryExecutionID s).outcome = .exit 1 := by
  have hrounds := pollLoop_rounds unmarshal svc queryExecutionID k 0 s (by omega)
    (fun i hi => pending_of_queued_or_running (hpending i hi))
  rw [getQueryResults, hrounds,
    pollLoop_failed unmarshal svc queryExecutionID (0 + k) _ st (by omega) hrep hst]
  exact ⟨rfl, rfl⟩

/-- C6, the code at a status check that reports Failed: the check is the last
remote call (no further check, no fetch), but `log.Fatalln` then ends the
process with exit status 1, so `getQueryResults` returns nothing to its
caller, neither an error nor a result. -/
theorem getQueryResults_failed_exits :
    (getQueryResults jsonUnmarshal (mockSvc (startReply "mock-query-id")
        (statusScript [] QueryExecutionStateFailed)
        (resultsReply [headerRow, testRow])) (some "mock-query-id") 0).outcome = .exit 1 ∧
    (getQueryResults jsonUnmarshal (mockSvc (startReply "mock-query-id")
        (statusScript [] QueryExecutionStateFailed)
        (resultsReply [headerRow, testRow])) (some "mock-query-id") 0).trace =
      [Effect.GetQueryExecution { QueryExecutionId := some "mock-query-id" } none,
       Effect.Fatalln ["Query com status de falha/cancelada: ", "FAILED"]] ∧
    ∀ v, (getQueryResults jsonUnmarshal (mockSvc (startReply "mock-query-id")
        (statusScript [] QueryExecutionStateFailed)
        (resultsReply [headerRow, testRow])) (some "mock-query-id") 0).outcome ≠ .ret v := by
  have hrun := pollLoop_failed jsonUnmarshal (mockSvc (startReply "mock-query-id")
    (statusScript [] QueryExecutionStateFailed) (resultsReply [headerRow, testRow]))
    (some "mock-query-id") 0 0 QueryExecutionStateFailed (by decide) ⟨rfl, rfl⟩ (Or.inl rfl)
  rw [getQueryResults, hrun]
  refine ⟨rfl, rfl, ?_⟩
  intro v hv
  cases hv

/-! ## Claims about queryAthena -/

theorem getQueryResults_check_error {σ : Type} (unmarshal : Unmarshal) (svc : AthenaClient σ)
    (queryExecutionID : Option String) (s : σ) (k : Nat) (e : GoError) (hk : k < maxWaitTime)
    (hpending : ∀ i < k, ∃ st, Reports (pollReply svc queryExecutionID i s) st ∧
      st ≠ QueryExecutionStateSucceeded ∧ st ≠ QueryExecutionStateFailed ∧
      st ≠ QueryExecutionStateCancelled)
    (herr : (pollReply svc queryExecutionID k s).err = some e) :
    (getQueryResults unmarshal svc queryExecutionID s).trace =
        pollTrace queryExecutionID k ++
          [Effect.GetQueryExecution { QueryExecutionId := queryExecutionID } (some e)] ∧
      (getQueryResults unmarshal svc queryExecutionID s).outcome = .ret (none, some e) := by
  have hrounds := pollLoop_rounds unmarshal svc queryExecutionID k 0 s (by omega) hpending
  rw [getQueryResults, hrounds,
    pollLoop_error unmarshal svc queryExecutionID (0 + k) _ e (by omega) herr]
  exact ⟨rfl, rfl⟩

theorem queryAthena_submitted {σ : Type} (unmarshal : Unmarshal) (svc : AthenaClient σ)
    (queryID : String) (s : σ) (result : StartQueryExecutionOutput)
    (hstart : (svc.StartQueryExecution s
      { QueryString := some ("SELECT * FROM tb_teste WHERE id='" ++ queryID ++ "'")
        OutputLocation := some "s3://bucket-teste/query-results/" }).2 =
      { out := some result, err := none }) :
    (queryAthena unmarshal svc queryID s).trace =
        Effect.StartQueryExecution
          { QueryString := some ("SELECT * FROM tb_teste WHERE id='" ++ queryID ++ "'")
            OutputLocation := some "s3://bucket-teste/query-results/" } none ::
          (getQueryResults unmarshal svc result.QueryExecutionId (svc.StartQueryExecution s
            { QueryString := some ("SELECT * FROM tb_teste WHERE id='" ++ queryID ++ "'")
              OutputLocation := some "s3://bucket-teste/query-results/" }).1).trace ∧
      (queryAthena unmarshal svc queryID s).outcome =
        match (getQueryResults unmarshal svc result.QueryExecutionId (svc.StartQueryExecution s
            { QueryString := some ("SELECT * FROM tb_teste WHERE id='" ++ queryID ++ "'")
              OutputLocation := some "s3://bucket-teste/query-results/" }).1).outcome with
        | .ret (_, some err) => .ret (none, some err)
        | .ret (results, none) => .ret (results, none)
        | .panic p => .panic p
        | .exit c => .exit c := by
  simp only [queryAthena, hstart]
  constructor
  · split <;> rfl
  · split <;> simp_all

/-- C9: no remote call is retried.  Whenever a remote call of `queryAthena`
(the submission, a status check or the result fetch) returns an error, that
call is the last effect of the run (no remote call, sleep or log follows), no
earlier remote call failed, and `queryAthena` returns a nil result with exactly
that error.  If the failing call is the k-th status check, the run made exactly
k status checks and zero fetches; if it is the submission, the run made zero
status checks and zero fetches. -/
theorem queryAthena_no_retry {σ : Type} (unmarshal : Unmarshal) (svc : AthenaClient σ)
    (queryID : String) (s : σ) (pre : List Effect) (c : Effect) (post : List Effect)
    (e : GoError)
    (htrace : (queryAthena unmarshal svc queryID s).trace = pre ++ c :: post)
    (herr : Effect.remoteErr c = some e) :
    post = [] ∧ Quiet pre ∧
      (queryAthena unmarshal svc queryID s).outcome = .ret (none, some e) ∧
      (∀ input k, c = Effect.GetQueryExecution input (some e) → statusChecks pre + 1 = k →
        statusChecks (queryAthena unmarshal svc queryID s).trace = k ∧
          fetches (queryAthena unmarshal svc queryID s).trace = 0) ∧
      (∀ input, c = Effect.StartQueryExecution input (some e) →
        statusChecks (queryAthena unmarshal svc queryID s).trace = 0 ∧
          fetches (queryAthena unmarshal svc queryID s).trace = 0) := by
  rcases queryAthena_cases unmarshal svc queryID s with
    ⟨e0, -, htr, hout⟩ | ⟨-, -, htr, -⟩ | ⟨result, -, -, htr, -, -, hgerr, -, -⟩
  · rw [htr] at htrace
    have hq : Quiet ([] : List Effect) := quiet_nil
    obtain ⟨hpost, hpre, hc⟩ := failed_call_is_last hq (List.nil_append _).symm htrace herr
    subst hpost hpre hc
    simp only [Effect.remoteErr, Option.some.injEq] at herr
    subst herr
    refine ⟨rfl, quiet_nil, hout, ?_, ?_⟩
    · intro input k hc
      cases hc
    · intro input _
      rw [htr]
      exact ⟨rfl, rfl⟩
  · rw [htr] at htrace
    have hmem : c ∈ [Effect.StartQueryExecution
        { QueryString := some ("SELECT * FROM tb_teste WHERE id='" ++ queryID ++ "'")
          OutputLocation := some "s3://bucket-teste/query-results/" } none] := by
      rw [htrace]
      simp
    simp only [List.mem_singleton] at hmem
    subst hmem
    cases herr
  · obtain ⟨hshape, hsub⟩ := getQueryResults_stopsAtError unmarshal svc result.QueryExecutionId
      (svc.StartQueryExecution s
        { QueryString := some ("SELECT * FROM tb_teste WHERE id='" ++ queryID ++ "'")
          OutputLocation := some "s3://bucket-teste/query-results/" }).1
    have hstartq : Quiet [Effect.StartQueryExecution
        { QueryString := some ("SELECT * FROM tb_teste WHERE id='" ++ queryID ++ "'")
          OutputLocation := some "s3://bucket-teste/query-results/" } none] := by
      intro x hx
      simp only [List.mem_singleton] at hx
      subst hx
      rfl
    rcases hshape with hquiet | ⟨p, c', e', hg, hqp, hfp, he', hgout⟩
    · exfalso
      have hall := quiet_append hstartq hquiet
      have hmem : c ∈ pre ++ c :: post := by simp
      rw [← htrace, htr] at hmem
      have := hall c hmem
      rw [this] at herr
      cases herr
    · have htr' : (queryAthena unmarshal svc queryID s).trace =
          (Effect.StartQueryExecution
            { QueryString := some ("SELECT * FROM tb_teste WHERE id='" ++ queryID ++ "'")
              OutputLocation := some "s3://bucket-teste/query-results/" } none :: p) ++ [c'] := by
        rw [htr, hg]
        rfl
      obtain ⟨hpost, hpre, hc⟩ := failed_call_is_last (quiet_append hstartq hqp) htr' htrace herr
      subst hpost hpre hc
      rw [herr] at he'
      simp only [Option.some.injEq] at he'
      subst he'
      refine ⟨rfl, quiet_append hstartq hqp, hgerr _ _ hgout, ?_, ?_⟩
      · intro input k hc hk
        have hf : fetches ([Effect.StartQueryExecution
            { QueryString := some ("SELECT * FROM tb_teste WHERE id='" ++ queryID ++ "'")
              OutputLocation := some "s3://bucket-teste/query-results/" } none] ++ p) = 0 := by
          rw [fetches_append, hfp]
          rfl
        rw [htrace, statusChecks_append, fetches_append, hf, hc]
        exact ⟨hk, rfl⟩
      · intro input hc
        exfalso
        have hmem : c ∈ (getQueryResults unmarshal svc result.QueryExecutionId
            (svc.StartQueryExecution s
              { QueryString := some ("SELECT * FROM tb_teste WHERE id='" ++ queryID ++ "'")
                OutputLocation := some "s3://bucket-teste/query-results/" }).1).trace := by
          rw [hg]
          simp
        rw [hc] at hmem
        exact not_mem_of_submissions_eq_zero hsub _ _ hmem

/-- Witness of C9: the third status check fails; three checks were made and no fetch. -/
theorem queryAthena_no_retry_witness :
    (queryAthena jsonUnmarshal (mockSvc (startReply "mock-query-id")
        (failingAt 2 "status check failed") (resultsReply [headerRow, testRow]))
        "test-id" 0).trace =
      [Effect.StartQueryExecution
          { QueryString := some "SELECT * FROM tb_teste WHERE id='test-id'"
            OutputLocation := some "s3://bucket-teste/query-results/" } none,
        Effect.GetQueryExecution { QueryExecutionId := some "mock-query-id" } none,
        Effect.Sleep 1,
        Effect.GetQueryExecution { QueryExecutionId := some "mock-query-id" } none,
        Effect.Sleep 1] ++
        Effect.GetQueryExecution { QueryExecutionId := some "mock-query-id" }
          (some { msg := "status check failed" }) :: [] ∧
    Effect.remoteErr (Effect.GetQueryExecution { QueryExecutionId := some "mock-query-id" }
        (some { msg := "status check failed" })) = some { msg := "status check failed" } ∧
    (queryAthena jsonUnmarshal (mockSvc (startReply "mock-query-id")
        (failingAt 2 "status check failed") (resultsReply [headerRow, testRow]))
        "test-id" 0).outcome = .ret (none, some { msg := "status check failed" }) ∧
    statusChecks (queryAthena jsonUnmarshal (mockSvc (startReply "mock-query-id")
        (failingAt 2 "status check failed") (resultsReply [headerRow, testRow]))
        "test-id" 0).trace = 3 ∧
    fetches (queryAthena jsonUnmarshal (mockSvc (startReply "mock-query-id")
        (failingAt 2 "status check failed") (resultsReply [headerRow, testRow]))
        "test-id" 0).trace = 0 := by
  have hpending : ∀ i < 2, ∃ st,
      Reports (pollReply (mockSvc (startReply "mock-query-id")
        (failingAt 2 "status check failed") (resultsReply [headerRow, testRow]))
        (some "mock-query-id") i 0) st ∧
      st ≠ QueryExecutionStateSucceeded ∧ st ≠ QueryExecutionStateFailed ∧
      st ≠ QueryExecutionStateCancelled := by
    intro i hi
    interval_cases i
    · exact ⟨QueryExecutionStateRunning, ⟨rfl, rfl⟩, by decide, by decide, by decide⟩
    · exact ⟨QueryExecutionStateRunning, ⟨rfl, rfl⟩, by decide, by decide, by decide⟩
  have hg := getQueryResults_check_error jsonUnmarshal (mockSvc (startReply "mock-query-id")
    (failingAt 2 "status check failed") (resultsReply [headerRow, testRow]))
    (some "mock-query-id") 0 2 { msg := "status check failed" } (by decide) hpending rfl
  have hq := queryAthena_submitted jsonUnmarshal (mockSvc (startReply "mock-query-id")
    (failingAt 2 "status check failed") (resultsReply [headerRow, testRow]))
    "test-id" 0 { QueryExecutionId := some "mock-query-id" } rfl
  have htrace : (queryAthena jsonUnmarshal (mockSvc (startReply "mock-query-id")
        (failingAt 2 "status check failed") (resultsReply [headerRow, testRow]))
        "test-id" 0).trace =
      [Effect.StartQueryExecution
          { QueryString := some "SELECT * FROM tb_teste WHERE id='test-id'"
            OutputLocation := some "s3://bucket-teste/query-results/" } none,
        Effect.GetQueryExecution { QueryExecutionId := some "mock-query-id" } none,
        Effect.Sleep 1,
        Effect.GetQueryExecution { QueryExecutionId := some "mock-query-id" } none,
        Effect.Sleep 1] ++
        Effect.GetQueryExecution { QueryExecutionId := some "mock-query-id" }
          (some { msg := "status check failed" }) :: [] := by
    rw [hq.1]
    simp only [mockSvc]
    simp only [mockSvc] at hg
    rw [hg.1]
    decide
  have h := queryAthena_no_retry jsonUnmarshal _ "test-id" 0 _ _ _
    { msg := "status check failed" } htrace rfl
  exact ⟨htrace, rfl, h.2.2.1, (h.2.2.2.1 _ 3 rfl rfl).1, (h.2.2.2.1 _ 3 rfl rfl).2⟩

/-! ## Claims about the handler -/

theorem queryAthena_first_check_succeeded {σ : Type} (unmarshal : Unmarshal)
    (svc : AthenaClient σ) (queryID : String) (s : σ) (result : StartQueryExecutionOutput)
    (hstart : (svc.StartQueryExecution s
      { QueryString := some ("SELECT * FROM tb_teste WHERE id='" ++ queryID ++ "'")
        OutputLocation := some "s3://bucket-teste/query-results/" }).2 =
      { out := some result, err := none })
    (hstatus : Reports (svc.GetQueryExecution (svc.StartQueryExecution s
        { QueryString := some ("SELECT * FROM tb_teste WHERE id='" ++ queryID ++ "'")
          OutputLocation := some "s3://bucket-teste/query-results/" }).1
        { QueryExecutionId := result.QueryExecutionId }).2 QueryExecutionStateSucceeded) :
    (queryAthena unmarshal svc queryID s).trace =
        Effect.StartQueryExecution
          { QueryString := some ("SELECT * FROM tb_teste WHERE id='" ++ queryID ++ "'")
            OutputLocation := some "s3://bucket-teste/query-results/" } none ::
        Effect.GetQueryExecution { QueryExecutionId := result.QueryExecutionId } none ::
          (fetchResults unmarshal svc result.QueryExecutionId
            (svc.GetQueryExecution (svc.StartQueryExecution s
              { QueryString := some ("SELECT * FROM tb_teste WHERE id='" ++ queryID ++ "'")
                OutputLocation := some "s3://bucket-teste/query-results/" }).1
              { QueryExecutionId := result.QueryExecutionId }).1).trace ∧
      (queryAthena unmarshal svc queryID s).outcome =
        match (fetchResults unmarshal svc result.QueryExecutionId
            (svc.GetQueryExecution (svc.StartQueryExecution s
              { QueryString := some ("SELECT * FROM tb_teste WHERE id='" ++ queryID ++ "'")
                OutputLocation := some "s3://bucket-teste/query-results/" }).1
              { QueryExecutionId := result.QueryExecutionId }).1).outcome with
        | .ret (_, some err) => .ret (none, some err)
        | .ret (results, none) => .ret (results, none)
        | .panic p => .panic p
        | .exit c => .exit c := by
  obtain ⟨htr, hout⟩ := queryAthena_submitted unmarshal svc queryID s result hstart
  have hg := pollLoop_succeeded unmarshal svc result.QueryExecutionId 0 _ (by decide) hstatus
  rw [htr, hout, getQueryResults, hg]
  exact ⟨rfl, rfl⟩

theorem jsonMarshal_never_fails (athenaResult : Slice Event) :
    (jsonMarshal athenaResult).2 = none := by
  cases athenaResult <;> rfl

theorem handler_of_query {σ : Type} (unmarshal : Unmarshal) (svc : AthenaClient σ)
    (id : String) (s : σ) (hid : id ≠ "") (events : Slice Event)
    (hq : (queryAthena unmarshal svc id s).outcome = .ret (events, none)) :
    (handler unmarshal svc { PathParameters := [("id", id)] } s).outcome =
      .ret ({ StatusCode := 200, Body := (jsonMarshal events).1 }, none) := by
  have hparam : pathParameter [("id", id)] "id" = id := by simp [pathParameter]
  simp only [handler, hparam, if_neg hid, hq]
  have hm := jsonMarshal_never_fails events
  cases hj : jsonMarshal events with
  | mk res err =>
    rw [hj] at hm
    simp only at hm
    subst hm
    rfl

/-- C7, the code on the fixture of `TestHandler`: the result set holds the
single row and no header, so the loop over `Rows[1:]` skips that row;
`queryAthena` returns no Event (a nil slice, no error) instead of the Event the
test expects, and the handler answers HTTP 200 with the body `null`, not the
JSON array of that Event. -/
theorem testHandler_single_row_yields_no_event :
    (queryAthena jsonUnmarshal (mockSvc (startReply "mock-query-id")
        (statusScript [] QueryExecutionStateSucceeded) (resultsReply [testRow]))
        "test-id" 0).outcome = .ret (none, none) ∧
    (queryAthena jsonUnmarshal (mockSvc (startReply "mock-query-id")
        (statusScript [] QueryExecutionStateSucceeded) (resultsReply [testRow]))
        "test-id" 0).outcome ≠ .ret (some [testEvent], none) ∧
    (handler jsonUnmarshal (mockSvc (startReply "mock-query-id")
        (statusScript [] QueryExecutionStateSucceeded) (resultsReply [testRow]))
        testRequest 0).outcome = .ret ({ StatusCode := 200, Body := "null" }, none) ∧
    (handler jsonUnmarshal (mockSvc (startReply "mock-query-id")
        (statusScript [] QueryExecutionStateSucceeded) (resultsReply [testRow]))
        testRequest 0).outcome ≠ .ret ({ StatusCode := 200, Body := testBody }, none) := by
  have hq : (queryAthena jsonUnmarshal (mockSvc (startReply "mock-query-id")
        (statusScript [] QueryExecutionStateSucceeded) (resultsReply [testRow]))
        "test-id" 0).outcome = .ret (none, none) := by
    rw [(queryAthena_first_check_succeeded jsonUnmarshal (mockSvc (startReply "mock-query-id")
      (statusScript [] QueryExecutionStateSucceeded) (resultsReply [testRow])) "test-id" 0
      { QueryExecutionId := some "mock-query-id" } rfl ⟨rfl, rfl⟩).2]
    rfl
  have hh := handler_of_query jsonUnmarshal _ "test-id" 0 (by decide) none hq
  refine ⟨hq, ?_, ?_, ?_⟩
  · rw [hq]
    intro h
    cases h
  · rw [testRequest, hh]
    rfl
  · rw [testRequest, hh]
    decide

/-- With a header row in front, the end-to-end run gives what `TestHandler`
expects: for a non-empty id, when the submission returns
a handle, the first status check reports Succeeded, and `GetQueryResults`
returns a result set whose Rows list is a header row followed by one single
well-formed row, `queryAthena` returns exactly one Event built from that row
(its first three columns and the detail of its decoded fourth column), after
one submission, one status check and one fetch, and the handler answers HTTP
200 with the JSON array of that one Event as body. -/
theorem queryAthena_single_data_row {σ : Type} (unmarshal : Unmarshal) (svc : AthenaClient σ)
    (id : String) (s : σ) (handle : Option String) (header row : Option Row)
    (c0 c1 c2 c3 : String) (txtInfo : JSONMap) (hid : id ≠ "")
    (hstart : (svc.StartQueryExecution s
      { QueryString := some ("SELECT * FROM tb_teste WHERE id='" ++ id ++ "'")
        OutputLocation := some "s3://bucket-teste/query-results/" }).2 =
      { out := some { QueryExecutionId := handle }, err := none })
    (hstatus : Reports (svc.GetQueryExecution (svc.StartQueryExecution s
        { QueryString := some ("SELECT * FROM tb_teste WHERE id='" ++ id ++ "'")
          OutputLocation := some "s3://bucket-teste/query-results/" }).1
        { QueryExecutionId := handle }).2 QueryExecutionStateSucceeded)
    (hresults : (svc.GetQueryResults (svc.GetQueryExecution (svc.StartQueryExecution s
        { QueryString := some ("SELECT * FROM tb_teste WHERE id='" ++ id ++ "'")
          OutputLocation := some "s3://bucket-teste/query-results/" }).1
        { QueryExecutionId := handle }).1 { QueryExecutionId := handle }).2 =
      { out := some { ResultSet := some { Rows := [header, row] } }, err := none })
    (hrow : HasColumns row c0 c1 c2 c3) (hjson : unmarshal c3 = .ok txtInfo) :
    (queryAthena unmarshal svc id s).outcome =
        .ret (some [{ Name := c0, Data := c1, Status := c2,
                      ErroDetail := erroDetailOf txtInfo }], none) ∧
      (queryAthena unmarshal svc id s).trace =
        [Effect.StartQueryExecution
          { QueryString := some ("SELECT * FROM tb_teste WHERE id='" ++ id ++ "'")
            OutputLocation := some "s3://bucket-teste/query-results/" } none,
         Effect.GetQueryExecution { QueryExecutionId := handle } none,
         Effect.GetQueryResults { QueryExecutionId := handle } none] ∧
      (handler unmarshal svc { PathParameters := [("id", id)] } s).outcome =
        .ret ({ StatusCode := 200
                Body := "[" ++ encodeEvent { Name := c0, Data := c1, Status := c2,
                                              ErroDetail := erroDetailOf txtInfo } ++ "]" },
              none) := by
  obtain ⟨htr, hout⟩ := queryAthena_first_check_succeeded unmarshal svc id s
    { QueryExecutionId := handle } hstart hstatus
  have hf := fetchResults_of_rows unmarshal svc handle _ header [row] hresults
  have hloop : fetchResultsLoop unmarshal [row] none =
      .ret (some [{ Name := c0, Data := c1, Status := c2,
                    ErroDetail := erroDetailOf txtInfo }], none) := by
    simp only [fetchResultsLoop, fetchResultsRow_of_hasColumns unmarshal hrow, hjson]
    rfl
  have hq : (queryAthena unmarshal svc id s).outcome =
      .ret (some [{ Name := c0, Data := c1, Status := c2,
                    ErroDetail := erroDetailOf txtInfo }], none) := by
    rw [hout, hf]
    simp only [hloop]
  refine ⟨hq, ?_, ?_⟩
  · rw [htr, hf]
  · rw [handler_of_query unmarshal svc id s hid _ hq]
    rfl

/-- The replies of `TestHandler` with a header row before its row give the
Event and the body the test expects. -/
theorem queryAthena_single_data_row_witness :
    ("test-id" ≠ "") ∧
    HasColumns testRow "event1" "2024-08-24T00:00:00Z" "status1"
      "\x7b\"erros\":[\x7b\"descricao\":\"error description\"\x7d]\x7d" ∧
    jsonUnmarshal "\x7b\"erros\":[\x7b\"descricao\":\"error description\"\x7d]\x7d" =
      .ok [("erros", .array [.object [("descricao", .string "error description")]])] ∧
    (queryAthena jsonUnmarshal (mockSvc (startReply "mock-query-id")
        (statusScript [] QueryExecutionStateSucceeded) (resultsReply [headerRow, testRow]))
        "test-id" 0).outcome = .ret (some [testEvent], none) ∧
    (handler jsonUnmarshal (mockSvc (startReply "mock-query-id")
        (statusScript [] QueryExecutionStateSucceeded) (resultsReply [headerRow, testRow]))
        testRequest 0).outcome = .ret ({ StatusCode := 200, Body := testBody }, none) := by
  have h := queryAthena_single_data_row jsonUnmarshal (mockSvc (startReply "mock-query-id")
    (statusScript [] QueryExecutionStateSucceeded) (resultsReply [headerRow, testRow]))
    "test-id" 0 (some "mock-query-id") headerRow testRow "event1" "2024-08-24T00:00:00Z"
    "status1" "\x7b\"erros\":[\x7b\"descricao\":\"error description\"\x7d]\x7d"
    [("erros", .array [.object [("descricao", .string "error description")]])]
    (by decide) rfl ⟨rfl, rfl⟩ rfl ⟨[], rfl⟩ rfl
  refine ⟨by decide, ⟨[], rfl⟩, rfl, h.1, ?_⟩
  rw [testRequest, h.2.2]
  decide

/-- C8, the code on a result set with only the header row: `queryAthena`
succeeds with the nil slice, and the handler answers HTTP 200 with the body
`null`, which is not the empty JSON array. -/
theorem handler_header_only_body_null :
    (queryAthena jsonUnmarshal (mockSvc (startReply "mock-query-id")
        (statusScript [] QueryExecutionStateSucceeded) (resultsReply [headerRow]))
        "test-id" 0).outcome = .ret (none, none) ∧
    (handler jsonUnmarshal (mockSvc (startReply "mock-query-id")
        (statusScript [] QueryExecutionStateSucceeded) (resultsReply [headerRow]))
        testRequest 0).outcome = .ret ({ StatusCode := 200, Body := "null" }, none) ∧
    (handler jsonUnmarshal (mockSvc (startReply "mock-query-id")
        (statusScript [] QueryExecutionStateSucceeded) (resultsReply [headerRow]))
        testRequest 0).outcome ≠ .ret ({ StatusCode := 200, Body := "[]" }, none) := by
  have hq : (queryAthena jsonUnmarshal (mockSvc (startReply "mock-query-id")
        (statusScript [] QueryExecutionStateSucceeded) (resultsReply [headerRow]))
        "test-id" 0).outcome = .ret (none, none) := by
    rw [(queryAthena_first_check_succeeded jsonUnmarshal (mockSvc (startReply "mock-query-id")
      (statusScript [] QueryExecutionStateSucceeded) (resultsReply [headerRow])) "test-id" 0
      { QueryExecutionId := some "mock-query-id" } rfl ⟨rfl, rfl⟩).2]
    rfl
  have hh := handler_of_query jsonUnmarshal _ "test-id" 0 (by decide) none hq
  refine ⟨hq, ?_, ?_⟩
  · rw [testRequest, hh]
    rfl
  · rw [testRequest, hh]
    decide

end LambdaGolang
